import Mathlib

/-!
Verification of the y2t filter/sort/normalization engine (src/js/common.js,
src/js/filtersort.js) against its natural-language specification.

The JavaScript source is shallowly embedded: JS numbers are modelled by
`JSNum` (NaN, the two infinities, and finite values as exact rationals —
every number the engine actually produces is an integer well inside the
double-exact range), JS values by `JSVal`, strings by Lean `String`
(characters model UTF-16 units; exact for the BMP inputs the engine sees).
Host-provided facilities (the DOM helpers behind `escapeHtml`/`html2text`,
the regular-expression engine, `Date` parsing beyond the ISO forms the code
itself constructs) are modelled by explicit executable functions or passed
as parameters, mirroring the spec's statement that a host regex facility is
assumed available.
-/

/-- JS number: NaN, -Infinity, +Infinity, or a finite value (exact rational;
the engine only ever produces doubles that are exactly representable). -/
inductive JSNum where
  | nan : JSNum
  | neginf : JSNum
  | posinf : JSNum
  | fin : Rat → JSNum
deriving DecidableEq, Repr

/-- Rational addition with an integer fast path (definitionally equal to
`a + b`; the fast path keeps concrete whole-number computations
kernel-reducible). -/
def ratAddFast (a b : Rat) : Rat :=
  if a.den = 1 ∧ b.den = 1 then ((a.num + b.num : Int) : Rat) else a + b

/-- Rational multiplication by a natural number with an integer fast path
(equal to `a * k`). -/
def ratMulNatFast (a : Rat) (k : Nat) : Rat :=
  if a.den = 1 then ((a.num * k : Int) : Rat) else a * (k : Rat)

/-- A rational with denominator 1 is its numerator. -/
theorem intCast_num_of_den_one {a : Rat} (h : a.den = 1) : ((a.num : Int) : Rat) = a := by
  have := Rat.num_div_den a
  rw [h] at this
  simpa using this

/-- `ratAddFast` is ordinary addition. -/
theorem ratAddFast_eq (a b : Rat) : ratAddFast a b = a + b := by
  unfold ratAddFast
  split_ifs with h
  · rw [Int.cast_add, intCast_num_of_den_one h.1, intCast_num_of_den_one h.2]
  · rfl

/-- `ratMulNatFast` is ordinary multiplication. -/
theorem ratMulNatFast_eq (a : Rat) (k : Nat) : ratMulNatFast a k = a * (k : Rat) := by
  unfold ratMulNatFast
  split_ifs with h
  · rw [Int.cast_mul, intCast_num_of_den_one h]
    norm_num
  · rfl

namespace JSNum

/-- Shorthand for an integer JS number. -/
def int (n : Int) : JSNum := .fin (n : Rat)

/-- JS `<` on numbers (NaN incomparable, infinities at the ends). -/
def lt : JSNum → JSNum → Bool
  | .nan, _ => false
  | _, .nan => false
  | .neginf, .neginf => false
  | .neginf, _ => true
  | _, .neginf => false
  | .posinf, _ => false
  | _, .posinf => true
  | .fin a, .fin b => a < b

/-- JS addition on numbers. -/
def add : JSNum → JSNum → JSNum
  | .nan, _ => .nan
  | _, .nan => .nan
  | .neginf, .posinf => .nan
  | .posinf, .neginf => .nan
  | .neginf, _ => .neginf
  | _, .neginf => .neginf
  | .posinf, _ => .posinf
  | _, .posinf => .posinf
  | .fin a, .fin b => .fin (ratAddFast a b)

/-- JS multiplication by a positive integer constant (used by `ip2long`). -/
def mulPos : JSNum → Nat → JSNum
  | .nan, _ => .nan
  | .neginf, _ => .neginf
  | .posinf, _ => .posinf
  | .fin a, k => .fin (ratMulNatFast a k)

/-- JS falsiness of a number: NaN and 0 are falsy. -/
def falsy : JSNum → Bool
  | .nan => true
  | .fin a => a = 0
  | _ => false

/-- Truncation toward zero to an integer (the double being truncated is
exact for everything the engine computes). -/
def trunc : Rat → Int := fun q => if q < 0 then -((-q).floor) else q.floor

/-- JS ToInt32. -/
def toInt32 : JSNum → Int
  | .nan => 0
  | .neginf => 0
  | .posinf => 0
  | .fin q =>
      let m := (trunc q) % 4294967296
      if m ≥ 2147483648 then m - 4294967296 else m

/-- JS ToUint32 (the `>>> 0` operation). -/
def toUint32 : JSNum → Nat
  | .nan => 0
  | .neginf => 0
  | .posinf => 0
  | .fin q => ((trunc q) % 4294967296).toNat

end JSNum

/-- JS value as it appears in cells, filter-RPN arrays and evaluation
stacks: undefined, null, booleans, numbers, strings, arrays (string
elements — the only arrays the engine's data model touches are cssClass tag
lists), Date objects (carried as their internal time value, NaN for an
invalid date) and compiled RegExp objects (carried as their pattern;
matching is host-provided). -/
inductive JSVal where
  | vundef : JSVal
  | vnull : JSVal
  | vbool : Bool → JSVal
  | vnum : JSNum → JSVal
  | vstr : String → JSVal
  | varr : List String → JSVal
  | vdate : JSNum → JSVal
  | vregex : String → JSVal
deriving DecidableEq, Repr

/-- `$typeOf` from common.js: the bracketed class tag of a value. -/
def typeOf : JSVal → String
  | .vundef => "Undefined"
  | .vnull => "Null"
  | .vbool _ => "Boolean"
  | .vnum _ => "Number"
  | .vstr _ => "String"
  | .varr _ => "Array"
  | .vdate _ => "Date"
  | .vregex _ => "RegExp"

/-- JS whitespace characters (the ASCII ones; the engine's inputs are ASCII). -/
def isJsWs (c : Char) : Bool :=
  c = ' ' ∨ c = '\t' ∨ c = '\n' ∨ c = '\r' ∨ c = '\x0b' ∨ c = '\x0c'

/-- JS `\w` word character. -/
def isWordChar (c : Char) : Bool :=
  ('a' ≤ c ∧ c ≤ 'z') ∨ ('A' ≤ c ∧ c ≤ 'Z') ∨ ('0' ≤ c ∧ c ≤ '9') ∨ c = '_'

/-- ASCII upper-casing of one character (JS `toUpperCase` restricted to the
ASCII range the engine's data uses). -/
def upChar (c : Char) : Char :=
  if 'a' ≤ c ∧ c ≤ 'z' then Char.ofNat (c.toNat - 32) else c

/-- JS `String.prototype.toUpperCase` (ASCII). -/
def jsToUpper (s : String) : String := String.mk (s.data.map upChar)

/-- JS `String.prototype.trim`. -/
def jsTrim (s : String) : String :=
  String.mk (((s.data.dropWhile (isJsWs ·)).reverse.dropWhile (isJsWs ·)).reverse)

/-- JS `s.substring(a, b)` for `0 ≤ a ≤ b` (the only shape the engine uses). -/
def jsSubstring (s : String) (a b : Nat) : String :=
  String.mk ((s.data.drop a).take (b - a))

/-- JS `s.padStart(n, c)`. -/
def jsPadStart (s : String) (n : Nat) (c : Char) : String :=
  String.mk (List.replicate (n - s.data.length) c ++ s.data)

/-- JS `s.padEnd(n, c)`. -/
def jsPadEnd (s : String) (n : Nat) (c : Char) : String :=
  String.mk (s.data ++ List.replicate (n - s.data.length) c)

/-- JS `c.repeat(n)` for a single character. -/
def jsRepeat (c : Char) (n : Nat) : String := String.mk (List.replicate n c)

/-- JS `s.split(sep)` for a single-character separator. -/
def jsSplit (s : String) (sep : Char) : List String :=
  (List.splitOnP (· = sep) s.data).map String.mk

/-- JS `s.charAt 0` as an optional character. -/
def jsFirstChar (s : String) : Option Char := s.data.head?

/-- ASCII decimal digit test. -/
def isDigitCh (c : Char) : Bool := '0' ≤ c ∧ c ≤ '9'

/-- ASCII hexadecimal digit test. -/
def isHexDigitCh (c : Char) : Bool :=
  isDigitCh c ∨ ('a' ≤ c ∧ c ≤ 'f') ∨ ('A' ≤ c ∧ c ≤ 'F')

/-- Value of a list of decimal digits. -/
def digitsVal (l : List Char) : Nat := l.foldl (fun a c => a * 10 + (c.toNat - 48)) 0

/-- Value of a list of hexadecimal digits. -/
def hexDigitsVal (l : List Char) : Nat :=
  l.foldl (fun a c =>
    a * 16 + (if isDigitCh c then c.toNat - 48
              else if 'a' ≤ c ∧ c ≤ 'f' then c.toNat - 87 else c.toNat - 55)) 0

/-- Exponent part of a JS string numeric literal: consumes the whole rest of
the string or fails (NaN). Empty rest means exponent 0. -/
def jsParseExpPart : List Char → Option Int
  | [] => some 0
  | c :: r =>
      if c = 'e' ∨ c = 'E' then
        let (sgn, r') : Int × List Char :=
          match r with
          | '-' :: r' => (-1, r')
          | '+' :: r' => (1, r')
          | r' => (1, r')
        if r' ≠ [] ∧ r'.all (isDigitCh ·) then some (sgn * (digitsVal r' : Int)) else none
      else none

/-- JS ToNumber on a string (`Number(s)`, also what `isNaN(s)` coerces
through): trimmed; empty means 0; hex literal; otherwise an optionally
signed decimal literal with optional fraction and exponent, or Infinity. -/
def jsStrToNumber (s : String) : JSNum :=
  let t := ((s.data.dropWhile (isJsWs ·)).reverse.dropWhile (isJsWs ·)).reverse
  if t = [] then .fin 0
  else
    match t with
    | '0' :: 'x' :: r => if r ≠ [] ∧ r.all (isHexDigitCh ·) then .fin ((hexDigitsVal r : Nat) : Rat) else .nan
    | '0' :: 'X' :: r => if r ≠ [] ∧ r.all (isHexDigitCh ·) then .fin ((hexDigitsVal r : Nat) : Rat) else .nan
    | _ =>
      let (sgn, t') : Int × List Char :=
        match t with
        | '-' :: r => (-1, r)
        | '+' :: r => (1, r)
        | r => (1, r)
      if t' = "Infinity".data then (if sgn = 1 then .posinf else .neginf)
      else
        let ip := t'.takeWhile (isDigitCh ·)
        let rest1 := t'.dropWhile (isDigitCh ·)
        let (fp, rest2) : List Char × List Char :=
          match rest1 with
          | '.' :: r2 => (r2.takeWhile (isDigitCh ·), r2.dropWhile (isDigitCh ·))
          | _ => ([], rest1)
        let dotSeen : Bool := match rest1 with | '.' :: _ => true | _ => false
        if ip = [] ∧ fp = [] then .nan
        else if ¬ dotSeen ∧ rest1 ≠ [] ∧ rest2 = rest1 ∧ rest1.head? ≠ some 'e' ∧ rest1.head? ≠ some 'E' then .nan
        else
          match jsParseExpPart rest2 with
          | none => .nan
          | some e =>
              let digits : Int := (digitsVal (ip ++ fp) : Int)
              let e2 : Int := e - fp.length
              if e2 ≥ 0 then .fin ((sgn * digits * 10 ^ e2.toNat : Int) : Rat)
              else .fin ((sgn : Rat) * (digits : Rat) / ((10 : Rat) ^ (-e2).toNat))

/-- `isNaN(stringValue)` is false, i.e. the string coerces to a number. -/
def jsStrIsNumeric (s : String) : Bool := jsStrToNumber s ≠ .nan

/-- JS `parseInt(s)` (radix 10, or 16 on a `0x` prefix): trims, takes an
optional sign and the longest leading digit run, ignores the rest; NaN when
no digits are found. -/
def jsParseInt (s : String) : JSNum :=
  let t := s.data.dropWhile (isJsWs ·)
  let (sgn, t') : Int × List Char :=
    match t with
    | '-' :: r => (-1, r)
    | '+' :: r => (1, r)
    | r => (1, r)
  match t' with
  | '0' :: 'x' :: r =>
      let ds := r.takeWhile (isHexDigitCh ·)
      if ds = [] then .nan else .fin ((sgn * (hexDigitsVal ds : Int) : Int) : Rat)
  | '0' :: 'X' :: r =>
      let ds := r.takeWhile (isHexDigitCh ·)
      if ds = [] then .nan else .fin ((sgn * (hexDigitsVal ds : Int) : Int) : Rat)
  | _ =>
      let ds := t'.takeWhile (isDigitCh ·)
      if ds = [] then .nan else .fin ((sgn * (digitsVal ds : Int) : Int) : Rat)

/-- Digits of the terminating decimal expansion of `r / den` (fuel-bounded;
every fraction the engine parses from a decimal literal terminates). -/
def decDigits : Nat → Nat → Nat → List Char
  | 0, _, _ => []
  | _ + 1, 0, _ => []
  | fuel + 1, r, den => Char.ofNat (48 + r * 10 / den) :: decDigits fuel (r * 10 % den) den

/-- JS `Number.prototype.toString` (decimal notation; integers exactly as JS
prints them, terminating fractions in plain decimal). -/
def jsNumToString : JSNum → String
  | .nan => "NaN"
  | .neginf => "-Infinity"
  | .posinf => "Infinity"
  | .fin q =>
      let sgn := if q < 0 then "-" else ""
      let a := q.num.natAbs
      let ipart := toString (a / q.den)
      let frac := decDigits 1200 (a % q.den) q.den
      if frac = [] then sgn ++ ipart else sgn ++ ipart ++ "." ++ String.mk frac

/-- JS ToString of a value (`String(v)`, property-key coercion). A valid
Date's host-formatted text never matters to the engine; it is rendered
through its time value to keep the function deterministic and injective
enough for property lookup. -/
def jsToString : JSVal → String
  | .vundef => "undefined"
  | .vnull => "null"
  | .vbool b => if b then "true" else "false"
  | .vnum n => jsNumToString n
  | .vstr s => s
  | .varr xs => String.intercalate "," xs
  | .vdate t => if t = .nan then "Invalid Date" else "Date(" ++ jsNumToString t ++ ")"
  | .vregex p => "/" ++ p ++ "/i"

/-- JS ToNumber of a value. -/
def jsToNumberV : JSVal → JSNum
  | .vundef => .nan
  | .vnull => .fin 0
  | .vbool b => if b then .fin 1 else .fin 0
  | .vnum n => n
  | .vstr s => jsStrToNumber s
  | .varr xs => jsStrToNumber (String.intercalate "," xs)
  | .vdate t => t
  | .vregex _ => .nan

/-- Global `isNaN(v)`. -/
def jsIsNaNv (v : JSVal) : Bool := jsToNumberV v = .nan

/-- JS truthiness. -/
def jsTruthy : JSVal → Bool
  | .vundef => false
  | .vnull => false
  | .vbool b => b
  | .vnum n => ¬ n.falsy
  | .vstr s => s ≠ ""
  | .varr _ => true
  | .vdate _ => true
  | .vregex _ => true

/-- JS strict equality `===`. The object kinds (arrays, dates, regexes)
compare by reference; any two the engine compares are distinct objects. -/
def jsStrictEq : JSVal → JSVal → Bool
  | .vundef, .vundef => true
  | .vnull, .vnull => true
  | .vbool a, .vbool b => a = b
  | .vnum a, .vnum b => a ≠ .nan ∧ a = b
  | .vstr a, .vstr b => a = b
  | _, _ => false

/-- ToPrimitive as the relational operators use it (default number hint):
dates surface their time value, arrays and regexes their string form. -/
def toPrim : JSVal → JSVal
  | .varr xs => .vstr (String.intercalate "," xs)
  | .vdate t => .vnum t
  | .vregex p => .vstr ("/" ++ p ++ "/i")
  | v => v

/-- JS `<`: string-vs-string compares lexicographically (by UTF-16 unit,
which Lean's `String` order matches on the engine's BMP data), anything
else numerically with NaN incomparable. -/
def jsLess (a b : JSVal) : Bool :=
  match toPrim a, toPrim b with
  | .vstr x, .vstr y => decide (x < y)
  | x, y => JSNum.lt (jsToNumberV x) (jsToNumberV y)

/-- JS ToInt32 of a value. -/
def jsToInt32v (v : JSVal) : Int := JSNum.toInt32 (jsToNumberV v)

/-- JS ToUint32 of a value. -/
def jsToUint32v (v : JSVal) : Nat := JSNum.toUint32 (jsToNumberV v)

/-- Signed 32-bit view of an unsigned 32-bit value (result type of JS `&`
and `|`). -/
def int32OfUint32 (n : Nat) : Int :=
  if n ≥ 2147483648 then (n : Int) - 4294967296 else (n : Int)

/-- JS `a & b` on already-converted values. -/
def jsBitAnd (a b : JSVal) : JSVal :=
  .vnum (.fin ((int32OfUint32 (Nat.land (jsToUint32v a) (jsToUint32v b)) : Int) : Rat))

/-- JS `a | b` on already-converted values. -/
def jsBitOr (a b : JSVal) : JSVal :=
  .vnum (.fin ((int32OfUint32 (Nat.lor (jsToUint32v a) (jsToUint32v b)) : Int) : Rat))

/-- common.js `CIDRmasks[bits]` (for `0 < bits < 32`):
`~(0xFFFFFFFF >>> bits) >>> 0`. -/
def cidrMask (bits : Nat) : Nat := (4294967295 - (4294967295 >>> bits))

/-- common.js `cidr2long`: mask for a CIDR suffix, `/32` outside `1..31`.
The suffix is the JS number `parseInt` produced (NaN handled like the
source: NaN comparisons are false, so it falls to 0xFFFFFFFF). -/
def cidr2long (suffix : JSNum) : Nat :=
  match suffix with
  | .fin q => if 0 < q ∧ q < 32 then cidrMask (JSNum.trunc q).toNat else 4294967295
  | _ => 4294967295

/-- common.js `ip2long`: split on dots; exactly four pieces give the
base-256 weighted sum of their `ToNumber` coercions (NaN propagates),
anything else gives 0. -/
def ip2long (ip : String) : JSNum :=
  let octet := jsSplit ip '.'
  match octet with
  | [a, b, c, d] =>
      (((((jsStrToNumber a).mulPos 256).add (jsStrToNumber b)).mulPos 256).add
          (jsStrToNumber c)).mulPos 256 |>.add (jsStrToNumber d)
  | _ => .fin 0

/-- One `for..of` iteration of common.js `version2hash`: grows the hash by
dot-separated 6-wide groups until 36 characters, switches at a dash, then
accumulates an alphabetic suffix closed off (2 wide, `~`-padded) by the
first digit, after which the remainder gathers in `group`. -/
def version2hashStep (hash group : String) (char : Char) : String × String :=
  if hash.data.length < 36 then
    if char = '.' then
      (hash ++ jsPadStart (jsSubstring group 0 6) 6 ' ', "")
    else if char = '-' then
      let h := hash ++ jsPadStart (jsSubstring group 0 6) 6 ' '
      ((if h.data.length < 36 then jsPadEnd h 36 ' ' else h), "")
    else
      (hash, group.push char)
  else
    if hash.data.length < 38 then
      if char < '0' ∨ char > '9' then
        (hash, group.push char)
      else
        (hash ++ jsPadEnd (jsSubstring group 0 2) 2 '~', String.singleton char)
    else
      (hash, group.push char)

/-- common.js `version2hash`: version string to a fixed-width ordering hash
(six 6-wide dotted groups, a 2-wide dash suffix, a 6-wide build number). -/
def version2hash (ver : String) : String :=
  if ver = "" then
    jsRepeat ' ' 36 ++ jsRepeat '~' 2 ++ jsRepeat ' ' 6
  else
    let st := ver.data.foldl (fun (st : String × String) c => version2hashStep st.1 st.2 c) ("", "")
    let hash := st.1
    let group := st.2
    let hash1 :=
      if hash.data.length < 36 then
        let h := hash ++ jsPadStart (jsSubstring group 0 6) 6 ' '
        if h.data.length < 36 then
          jsPadEnd h 36 ' ' ++ jsRepeat '~' 2 ++ jsRepeat ' ' 6
        else h
      else hash
    if hash1.data.length < 44 then hash1 ++ jsPadStart (jsSubstring group 0 6) 6 ' ' else hash1

/-- `version2hash` applied to an arbitrary value, as the callers do: the
source's `!ver` falsy check, then the `String(ver)` coercion in the scan. -/
def version2hashV (ver : JSVal) : String :=
  if ¬ jsTruthy ver then
    jsRepeat ' ' 36 ++ jsRepeat '~' 2 ++ jsRepeat ' ' 6
  else version2hash (jsToString ver)

/-- Leap-year test (proleptic Gregorian, as JS dates use). -/
def isLeapYear (y : Int) : Bool := (y % 4 = 0 ∧ y % 100 ≠ 0) ∨ y % 400 = 0

/-- Days in a month. -/
def daysInMonth (y m : Int) : Int :=
  if m = 2 then (if isLeapYear y then 29 else 28)
  else if m = 4 ∨ m = 6 ∨ m = 9 ∨ m = 11 then 30 else 31

/-- Days from the epoch to a civil date (standard era-based computation;
the intermediate divisions all act on non-negative operands). -/
def daysFromCivil (y m d : Int) : Int :=
  let y' := if m ≤ 2 then y - 1 else y
  let era := (if 0 ≤ y' then y' else y' - 399) / 400
  let yoe := y' - era * 400
  let mp := if m > 2 then m - 3 else m + 9
  let doy := (153 * mp + 2) / 5 + d - 1
  let doe := yoe * 365 + yoe / 4 - yoe / 100 + doy
  era * 146097 + doe - 719468

/-- Civil date from days since the epoch (inverse of `daysFromCivil`). -/
def civilFromDays (z0 : Int) : Int × Int × Int :=
  let z := z0 + 719468
  let era := (if 0 ≤ z then z else z - 146096) / 146097
  let doe := z - era * 146097
  let yoe := (doe - doe / 1460 + doe / 36524 - doe / 146096) / 365
  let y := yoe + era * 400
  let doy := doe - (365 * yoe + yoe / 4 - yoe / 100)
  let mp := (5 * doy + 2) / 153
  let d := doy - (153 * mp + 2) / 5 + 1
  let m := if mp < 10 then mp + 3 else mp - 9
  (if m ≤ 2 then y + 1 else y, m, d)

/-- Clip a millisecond count to the JS `Date` range, truncating fractional
milliseconds (ToIntegerOrInfinity); out of range means an invalid date. -/
def dateClip (n : JSNum) : JSNum :=
  match n with
  | .fin q =>
      let t := JSNum.trunc q
      if t.natAbs ≤ 8640000000000000 then .fin (t : Rat) else .nan
  | _ => .nan

/-- Fixed-width decimal rendering of a non-negative integer. -/
def padNum (n : Int) (w : Nat) : String := jsPadStart (toString n.toNat) w '0'

/-- A `\d{4}-\d{2}-\d{2}` shaped character list. -/
def isYmdShape (l : List Char) : Bool :=
  match l with
  | [a, b, c, d, '-', e, f, '-', g, h] =>
      [a, b, c, d, e, f, g, h].all (isDigitCh ·)
  | _ => false

/-- Host `Date` parsing, modelled for the ISO forms the engine's own code
constructs or its data realistically carries: `YYYY-MM-DD` (midnight UTC)
and `YYYY-MM-DDTHH:MM:SSZ`; every other string is treated as unparseable.
Calendar-invalid components give an invalid date. -/
def jsDateParse (s : String) : JSNum :=
  let l := s.data
  let ymdMs : List Char → Option Int := fun d8 =>
    match d8 with
    | [a, b, c, d, '-', e, f, '-', g, h] =>
        if [a, b, c, d, e, f, g, h].all (isDigitCh ·) then
          let y : Int := digitsVal [a, b, c, d]
          let m : Int := digitsVal [e, f]
          let dd : Int := digitsVal [g, h]
          if 1 ≤ m ∧ m ≤ 12 ∧ 1 ≤ dd ∧ dd ≤ daysInMonth y m then
            some (daysFromCivil y m dd * 86400000)
          else none
        else none
    | _ => none
  if isYmdShape l then
    match ymdMs l with
    | some ms => .fin (ms : Rat)
    | none => .nan
  else
    match l.take 10, l.drop 10 with
    | d8, ['T', h1, h2, ':', m1, m2, ':', s1, s2, 'Z'] =>
        if [h1, h2, m1, m2, s1, s2].all (isDigitCh ·) then
          match ymdMs d8 with
          | some ms =>
              let hh : Int := digitsVal [h1, h2]
              let mm : Int := digitsVal [m1, m2]
              let ss : Int := digitsVal [s1, s2]
              if hh ≤ 23 ∧ mm ≤ 59 ∧ ss ≤ 59 then
                .fin ((ms + hh * 3600000 + mm * 60000 + ss * 1000 : Int) : Rat)
              else .nan
          | none => .nan
        else .nan
    | _, _ => .nan

/-- common.js `formatDate` on a date's time value. The host may route this
through moment.js with a custom format; all the engine needs is a
deterministic text, modelled by the function's own ISO fallback
(`toISOString` truncated to the date part), with moment's "Invalid date"
for an invalid date. -/
def formatDate (t : JSNum) : String :=
  match t with
  | .fin q =>
      let ms := JSNum.trunc q
      let days := (ms - (ms % 86400000 + 86400000) % 86400000) / 86400000
      match civilFromDays days with
      | (y, m, d) => padNum y 4 ++ "-" ++ padNum m 2 ++ "-" ++ padNum d 2
  | _ => "Invalid date"

/-- common.js `escapeHtml`: text made safe for HTML injection, via the DOM
(`textContent` then `innerHTML`): the serialization escapes the markup
characters. -/
def escapeHtmlS (s : String) : String :=
  String.mk (s.data.flatMap fun c =>
    if c = '&' then "&amp;".data
    else if c = '<' then "&lt;".data
    else if c = '>' then "&gt;".data
    else [c])

/-- `escapeHtml` as applied to a possibly non-string value (the DOM property
assignment coerces to string first). -/
def escapeHtmlV (v : JSVal) : String := escapeHtmlS (jsToString v)

/-- Tag stripping half of the DOM round-trip behind common.js `html2text`:
characters from `<` to the next `>` are markup, the rest is text. -/
def stripTagsGo : Bool → List Char → List Char
  | _, [] => []
  | true, c :: r => if c = '>' then stripTagsGo false r else stripTagsGo true r
  | false, c :: r => if c = '<' then stripTagsGo true r else c :: stripTagsGo false r

/-- Entity decoding half of the DOM round-trip behind common.js `html2text`. -/
def decodeEntities : List Char → List Char
  | '&' :: 'a' :: 'm' :: 'p' :: ';' :: r => '&' :: decodeEntities r
  | '&' :: 'l' :: 't' :: ';' :: r => '<' :: decodeEntities r
  | '&' :: 'g' :: 't' :: ';' :: r => '>' :: decodeEntities r
  | '&' :: 'q' :: 'u' :: 'o' :: 't' :: ';' :: r => '"' :: decodeEntities r
  | c :: r => c :: decodeEntities r
  | [] => []

/-- common.js `html2text`: HTML to its visible text (`innerHTML` then
`textContent`), modelled as tag stripping plus entity decoding. -/
def html2text (s : String) : String :=
  String.mk (decodeEntities (stripTagsGo false s.data))

/-- First match of common.js's intrange pattern
`([0-9]+)([^0-9]+([0-9]+))?`: the first maximal digit run, and the digit
run after the following non-digit run when there is one. -/
def intrangeExec : List Char → Option (List Char × Option (List Char))
  | [] => none
  | c :: r =>
      if isDigitCh c then
        let g1 := (c :: r).takeWhile (isDigitCh ·)
        let rest := (c :: r).dropWhile (isDigitCh ·)
        let rest2 := rest.dropWhile (fun c => ¬ isDigitCh c)
        if rest ≠ [] ∧ rest2 ≠ [] then
          some (g1, some (rest2.takeWhile (isDigitCh ·)))
        else
          some (g1, none)
      else intrangeExec r

/-- Candidate `\d{1,3}` octet matches at the head of a list, greedy
(longest) first, with the unconsumed remainder. -/
def tryOcts (l : List Char) : List (List Char × List Char) :=
  let ds := l.takeWhile (isDigitCh ·)
  let n := min ds.length 3
  (List.range n).map (fun i => ((ds.take (n - i)), l.drop (n - i)))

/-- Expect a literal dot. -/
def expectDot : List Char → Option (List Char)
  | '.' :: r => some r
  | _ => none

/-- The quad part of common.js's IP pattern at the current position:
`\d{1,3}\.\d{1,3}\.\d{1,3}\.\d{1,3}(?!\d)` with regex backtracking
(greedy octets, longest first). -/
def tryQuadAt (l : List Char) : Option (List Char × List Char) :=
  (tryOcts l).findSome? fun p1 =>
    (expectDot p1.2).bind fun r1 =>
    (tryOcts r1).findSome? fun p2 =>
      (expectDot p2.2).bind fun r2 =>
      (tryOcts r2).findSome? fun p3 =>
        (expectDot p3.2).bind fun r3 =>
        (tryOcts r3).findSome? fun p4 =>
          if (p4.2.head?.map (isDigitCh ·)).getD false then none
          else some (p1.1 ++ '.' :: p2.1 ++ '.' :: p3.1 ++ '.' :: p4.1, p4.2)

/-- The dotted tail `(\.\d{1,3}\.\d{1,3}\.\d{1,3})?` of a dotted netmask. -/
def tryDottedTriple (l : List Char) : Option (List Char) :=
  (expectDot l).bind fun r1 =>
  (tryOcts r1).findSome? fun p1 =>
    (expectDot p1.2).bind fun r2 =>
    (tryOcts r2).findSome? fun p2 =>
      (expectDot p2.2).bind fun r3 =>
      (tryOcts r3).findSome? (fun p3 =>
        some ('.' :: p1.1 ++ '.' :: p2.1 ++ '.' :: p3.1))

/-- First match of common.js's IP pattern
`(\d{1,3}\.\d{1,3}\.\d{1,3}\.\d{1,3}(?!\d))(\s*\/((\d{1,3})(\.\d{1,3}\.\d{1,3}\.\d{1,3})?)?)?`:
the quad (`matches[1]`) and, when a slash part followed, the mask text
(`matches[3]`, absent when the slash had no digits). -/
def ipExec : List Char → Option (String × Option String)
  | [] => none
  | c :: r =>
      match tryQuadAt (c :: r) with
      | some (quad, rest) =>
          let lws := rest.dropWhile (isJsWs ·)
          match lws with
          | '/' :: r2 =>
              let ds := r2.takeWhile (isDigitCh ·)
              if ds = [] then some (String.mk quad, none)
              else
                let m1 := ds.take (min ds.length 3)
                match tryDottedTriple (r2.drop m1.length) with
                | some tail => some (String.mk quad, some (String.mk (m1 ++ tail)))
                | none => some (String.mk quad, some (String.mk m1))
          | _ => some (String.mk quad, none)
      | none => ipExec r

/-- A table cell: the raw `value` plus the derived representations of
common.js. `none` models an absent property (`$hasProp` false); the
`match` property is called `matchv` (`match` is reserved in Lean). -/
structure Cell where
  value : Option JSVal := none
  typ : Option JSVal := none
  html : Option JSVal := none
  matchv : Option JSVal := none
  cmp : Option JSVal := none
  cmpMin : Option JSVal := none
  cmpMax : Option JSVal := none
  mask : Option JSVal := none
  cssClass : Option JSVal := none
  htmlAlt : Option JSVal := none
deriving DecidableEq, Repr

/-- A column of specs.yml: key, declared type (`none` when omitted) and the
per-column bad-value fallback. -/
structure Column where
  key : String
  type : Option String := none
  htmlAlt : Option JSVal := none
deriving DecidableEq, Repr

/-- The `options:` block of specs.yml (only the table-wide bad-value
fallback matters to the engine). -/
structure SpecsOptions where
  htmlAlt : Option JSVal := none
deriving DecidableEq, Repr

/-- What `row[column.key]` holds before normalization: either a shorthand
raw value or an already-objectified cell. -/
inductive CellInput where
  | raw : JSVal → CellInput
  | obj : Cell → CellInput
deriving DecidableEq, Repr

/-- `$typeOf` through a possibly absent property (reading it gives
`undefined`). -/
def typeOfOpt : Option JSVal → String
  | none => "Undefined"
  | some v => typeOf v

/-- The string payload of a property known to hold a string. -/
def strOfOpt : Option JSVal → String
  | some (.vstr s) => s
  | _ => ""

/-- The property holds a value of class Number (NaN included). -/
def isNumClassOpt : Option JSVal → Bool
  | some (.vnum _) => true
  | _ => false

/-- Keep a supplied property if it is a string, otherwise derive. -/
def keepStr (cur : Option JSVal) (alt : String) : Option JSVal :=
  match cur with
  | some (.vstr s) => some (.vstr s)
  | _ => some (.vstr alt)

/-- Keep a supplied property if it is a non-NaN number, otherwise derive. -/
def keepNum (cur : Option JSVal) (alt : JSVal) : Option JSVal :=
  match cur with
  | some (.vnum n) => if n = .nan then some alt else some (.vnum n)
  | _ => some alt

/-- common.js `value2array` applied to the cssClass property. -/
def value2array (v : Option JSVal) : JSVal :=
  match v with
  | some (.varr xs) => .varr xs
  | some (.vstr s) => if s.data.length ≠ 0 then .varr [s] else .varr []
  | _ => .varr []

/-- `cell.cssClass.push(tag)` (the property is an array by the time the
engine pushes). -/
def pushClass (v : Option JSVal) (tag : String) : Option JSVal :=
  match v with
  | some (.varr xs) => some (.varr (xs ++ [tag]))
  | x => x

/-- Lines 300..315 of common.js: objectify a shorthand value; recover a
missing `value` from a supplied html string. -/
def normPrep : CellInput → Cell
  | .raw v => { value := some v }
  | .obj c =>
      match c.value, c.html with
      | none, some (.vstr h) => { c with value := some (.vstr (html2text h)) }
      | _, _ => c

/-- Lines 317..322: record the value's class and normalize cssClass. -/
def normStart (input : CellInput) : Cell :=
  let cell := normPrep input
  { cell with
    typ := some (.vstr (typeOfOpt cell.value)),
    cssClass := some (value2array cell.cssClass) }

/-- The `int` branch of `normalizeValue` (common.js 325..361). -/
def normInt (cell : Cell) : Cell :=
  match cell.value with
  | some (.vnum n) =>
      if n ≠ .nan then
        { cell with
          html := keepStr cell.html (jsNumToString n),
          cmp := keepNum cell.cmp (.vnum n),
          matchv := keepStr cell.matchv (jsToUpper (jsNumToString n)) }
      else
        { cell with
          html := some .vundef,
          cmp := some (.vnum .neginf),
          matchv := some .vundef }
  | some (.vstr s) =>
      if jsStrIsNumeric s then
        { cell with
          html := some (.vstr (jsNumToString (jsParseInt s))),
          cmp := some (.vnum (jsParseInt s)),
          matchv := some (.vnum (jsParseInt s)) }
      else
        { cell with
          html := some (.vstr (escapeHtmlS s)),
          cmp := some (.vnum .neginf),
          matchv := some (.vstr (jsToUpper (html2text (escapeHtmlS s)))),
          cssClass := pushClass cell.cssClass "bad-value" }
  | _ =>
      { cell with
        html := some .vundef,
        cmp := some (.vnum .neginf),
        matchv := some .vundef }

/-- The `intrange` branch (common.js 364..429). -/
def normIntrange (cell : Cell) : Cell :=
  match cell.value with
  | some (.vnum n) =>
      if n ≠ .nan then
        { cell with
          html := keepStr cell.html (jsNumToString n),
          cmpMin := keepNum cell.cmpMin (.vnum n),
          cmpMax := keepNum cell.cmpMax (.vnum n),
          matchv := keepStr cell.matchv (jsToUpper (jsNumToString n)) }
      else
        { cell with
          html := some .vundef,
          cmpMin := some (.vnum .neginf),
          cmpMax := some (.vnum .neginf),
          matchv := some .vundef }
  | some (.vstr s) =>
      match intrangeExec s.data with
      | some (g1, og3) =>
          let rangeMin : JSNum := .fin ((digitsVal g1 : Nat) : Rat)
          let rangeMax : JSNum :=
            match og3 with
            | some g3 => .fin ((digitsVal g3 : Nat) : Rat)
            | none => rangeMin
          { cell with
            html := keepStr cell.html (escapeHtmlS s),
            cmpMin := keepNum cell.cmpMin (.vnum rangeMin),
            cmpMax := keepNum cell.cmpMax (.vnum rangeMax),
            matchv := keepStr cell.matchv (jsToUpper s) }
      | none =>
          { cell with
            html := some (.vstr (escapeHtmlS s)),
            cmpMin := some (.vnum .neginf),
            cmpMax := some (.vnum .neginf),
            matchv := some (.vstr (jsToUpper (html2text (escapeHtmlS s)))),
            cssClass := pushClass cell.cssClass "bad-value" }
  | _ =>
      { cell with
        html := some .vundef,
        cmpMin := some (.vnum .neginf),
        cmpMax := some (.vnum .neginf),
        matchv := some .vundef }

/-- The `ip` branch (common.js 432..476). -/
def normIp (cell : Cell) : Cell :=
  match cell.value with
  | some (.vstr s) =>
      let html' := keepStr cell.html (escapeHtmlS s)
      let matchv' := keepStr cell.matchv (jsToUpper (html2text (strOfOpt html')))
      let m := ipExec s.data
      let ipAddr : JSNum :=
        match m with
        | some (quad, _) => ip2long quad
        | none => .fin 0
      let maskStr : String :=
        match m with
        | some (_, some ms) => ms
        | _ => "32"
      let ipMask : JSNum :=
        if maskStr.data.contains '.' then ip2long maskStr
        else .fin ((cidr2long (jsParseInt maskStr) : Nat) : Rat)
      let cmpMin' := keepNum cell.cmpMin
        (.vnum (.fin ((Nat.land (JSNum.toUint32 ipAddr) (JSNum.toUint32 ipMask) : Nat) : Rat)))
      let cmpMax' := keepNum cell.cmpMax
        (.vnum (.fin ((Nat.lor (JSNum.toUint32 ipAddr) (4294967295 - JSNum.toUint32 ipMask) : Nat) : Rat)))
      let mask' :=
        match cell.mask with
        | some mv =>
            if isNumClassOpt cmpMax' ∧ ¬ jsIsNaNv mv then
              some mv
            else some (.vnum ipMask)
        | none => some (.vnum ipMask)
      let cell' := { cell with
        html := html', matchv := matchv',
        cmpMin := cmpMin', cmpMax := cmpMax', mask := mask' }
      if ipAddr.falsy then
        { cell' with cssClass := pushClass cell'.cssClass "bad-value" }
      else cell'
  | _ =>
      { cell with
        html := some .vundef,
        cmpMin := some (.vnum .neginf),
        cmpMax := some (.vnum .neginf),
        matchv := some .vundef }

/-- The `date` branch (common.js 479..534). -/
def normDate (cell : Cell) : Cell :=
  let isGoodDate : Bool :=
    match cell.value with
    | some (.vdate t) => ¬ (t = .nan)
    | some (.vnum n) => JSNum.lt (.fin 0) n
    | _ => false
  if isGoodDate then
    let date : JSNum :=
      match cell.value with
      | some (.vdate t) => t
      | some (.vnum n) => dateClip (if JSNum.lt n (.fin 10000000000) then n.mulPos 1000 else n)
      | _ => .nan
    let html' := keepStr cell.html (escapeHtmlS (formatDate date))
    { cell with
      html := html',
      cmp := keepNum cell.cmp (.vnum date),
      matchv := keepStr cell.matchv (jsToUpper (html2text (strOfOpt html'))) }
  else
    match cell.value with
    | some (.vstr s) =>
        let html' := keepStr cell.html (escapeHtmlS s)
        let matchv' := keepStr cell.matchv (jsToUpper (html2text (strOfOpt html')))
        let date := jsDateParse (if isYmdShape s.data then s ++ "T12:00:00Z" else s)
        if ¬ (date = .nan) then
          { cell with html := html', matchv := matchv', cmp := keepNum cell.cmp (.vnum date) }
        else
          { cell with html := html', matchv := matchv', cmp := some (.vnum (.fin 0)), cssClass := pushClass cell.cssClass "bad-value" }
    | _ =>
        { cell with
          cmp := some (.vnum (.fin 0)),
          matchv := some .vundef,
          html := some .vundef }

/-- The `version` branch (common.js 537..559). -/
def normVersion (cell : Cell) : Cell :=
  let isGood : Bool :=
    match cell.value with
    | some (.vstr _) => true
    | some (.vnum n) => JSNum.lt (.fin 0) n
    | _ => false
  if isGood then
    let v := match cell.value with | some w => w | none => .vundef
    let html' := keepStr cell.html (escapeHtmlV v)
    { cell with
      html := html',
      cmp := keepStr cell.cmp (version2hashV v),
      matchv := keepStr cell.matchv (jsToUpper (html2text (strOfOpt html'))) }
  else
    { cell with
      cmp := some (.vstr ""),
      matchv := some .vundef,
      html := some .vundef }

/-- The `str` fallback branch (common.js 563..591). -/
def normStr (cell : Cell) : Cell :=
  match cell.value with
  | some (.vstr s) =>
      let html' := keepStr cell.html (escapeHtmlS s)
      { cell with
        html := html',
        cmp := keepStr cell.cmp (jsToUpper s),
        matchv := keepStr cell.matchv (jsToUpper (html2text (strOfOpt html'))) }
  | some (.vnum n) =>
      if n ≠ .nan then
        { cell with
          html := some (.vstr (escapeHtmlS (jsNumToString n))),
          cmp := some (.vstr (jsToUpper (jsNumToString n))),
          matchv := some (.vstr (jsToUpper (jsNumToString n))) }
      else
        { cell with
          cmp := some (.vstr ""),
          matchv := some .vundef,
          html := some .vundef }
  | some (.vbool b) =>
      let t := if b then "true" else "false"
      { cell with
        html := some (.vstr (escapeHtmlS t)),
        cmp := some (.vstr (jsToUpper t)),
        matchv := some (.vstr (jsToUpper t)) }
  | _ =>
      { cell with
        cmp := some (.vstr ""),
        matchv := some .vundef,
        html := some .vundef }

/-- The bad-value display text (common.js 599..607): the htmlAlt chain
(cell, column, table) or the value's class name (the cell's `type`
property). -/
def fbText (opts : SpecsOptions) (column : Column) (cellHtmlAlt cellTyp : Option JSVal) : String :=
  match cellHtmlAlt with
  | some (.vstr s) => s
  | _ =>
      match column.htmlAlt with
      | some (.vstr s) => s
      | _ =>
          match opts.htmlAlt with
          | some (.vstr s) => s
          | _ => strOfOpt cellTyp

/-- The bad-value fallback (common.js 597..612): pick the display text,
derive `match` from it, and tag the cell. -/
def normFallback (opts : SpecsOptions) (column : Column) (cell : Cell) : Cell :=
  if cell.html = none ∨ cell.html = some .vundef then
    { cell with
      html := some (.vstr (fbText opts column cell.htmlAlt cell.typ)),
      matchv := some (.vstr (jsToUpper (html2text (fbText opts column cell.htmlAlt cell.typ)))),
      cssClass := pushClass cell.cssClass "bad-value" }
  else cell

/-- The cleansing pass (common.js 615..631): remove representations of the
opposite shape, and `mask` outside `ip` columns. -/
def normCleanse (column : Column) (cell : Cell) : Cell :=
  let cell :=
    if column.type = some "intrange" ∨ column.type = some "ip" then
      { cell with cmp := none }
    else
      { cell with cmpMin := none, cmpMax := none }
  if cell.mask ≠ none ∧ ¬ (column.type = some "ip") then { cell with mask := none } else cell

/-- The per-type dispatch of `normalizeValue` (the if/else chain of
common.js 325..592). -/
def normBody (column : Column) (cell : Cell) : Cell :=
  if column.type = some "int" then normInt cell
  else if column.type = some "intrange" then normIntrange cell
  else if column.type = some "ip" then normIp cell
  else if column.type = some "date" then normDate cell
  else if column.type = some "version" then normVersion cell
  else normStr cell

/-- common.js `normalizeValue`: derive every canonical representation of
one cell according to the column's declared type. -/
def normalizeValue (opts : SpecsOptions) (column : Column) (input : CellInput) : Cell :=
  normCleanse column (normFallback opts column (normBody column (normStart input)))

/-- filtersort.js `op`: the operator precedence table. -/
def opPrec : String → Option Nat
  | "==" => some 3
  | "=" => some 3
  | "!=" => some 3
  | "~" => some 3
  | "!~" => some 3
  | "@=" => some 3
  | "<" => some 3
  | ">" => some 3
  | "AND" => some 2
  | "OR" => some 1
  | _ => none

/-- `$hasProp(op, token)`. -/
def isOpTok (s : String) : Bool := (opPrec s).isSome

/-- A character list starts with the given characters. -/
def startsWithL (p l : List Char) : Bool := l.take p.length = p

/-- Case-insensitive ASCII version of `startsWithL` (the word-token
alternation carries the `i` flag). -/
def ciStartsWith (p l : List Char) : Bool :=
  (l.take p.length).map upChar = p.map upChar

/-- The ordered alternation of the non-word token regex after the quoted
case: the supplied operator tokens, then `!(`, `NOT(`, `)`, `(`. -/
def tryAltsNW (toks : List String) (rest : List Char) : Option (List Char) :=
  (toks ++ ["!(", "NOT(", ")", "("]).findSome? fun t =>
    if startsWithL t.data rest then some t.data else none

/-- filtersort.js `regex.nonWords`
(`^\s*("[^"]*"|tokens…|!\(|NOT\(|\)|\()\s*`): leading whitespace, a quoted
literal or the first matching alternative, trailing whitespace; gives the
consumed length and the trimmed token. -/
def matchNonWords (toks : List String) (l : List Char) : Option (Nat × String) :=
  let ws1 := (l.takeWhile (isJsWs ·)).length
  let rest := l.drop ws1
  let core? : Option (List Char) :=
    match rest with
    | '"' :: r2 =>
        let inner := r2.takeWhile (· ≠ '"')
        if inner.length < r2.length then some ('"' :: (inner ++ ['"'])) else tryAltsNW toks rest
    | _ => tryAltsNW toks rest
  core?.map fun core =>
    let rest2 := rest.drop core.length
    let ws2 := (rest2.takeWhile (isJsWs ·)).length
    (ws1 + core.length + ws2, String.mk core)

/-- filtersort.js `regex.words` (`^\b\s*(alternatives)\s*\b` with the `i`
flag): the input must open on a word character, an alternative must match
case-insensitively, and the trailing `\s*\b` consumes the following
whitespace run exactly when a word character follows it (regex
backtracking otherwise retries with no whitespace, where the boundary
must sit right after the alternative). -/
def matchWords (toks : List String) (l : List Char) : Option (Nat × String) :=
  match l.head? with
  | none => none
  | some c =>
      if ¬ isWordChar c then none
      else
        toks.findSome? fun t =>
          let tl := t.data
          if tl ≠ [] ∧ ciStartsWith tl l then
            let rest := l.drop tl.length
            let wsRun := (rest.takeWhile (isJsWs ·)).length
            let afterRun := rest.drop wsRun
            if wsRun > 0 ∧ ((afterRun.head?.map (isWordChar ·)).getD false) then
              some (tl.length + wsRun, String.mk (l.take tl.length))
            else
              let lastW := ((tl.getLast?).map (isWordChar ·)).getD false
              let nextW := ((rest.head?).map (isWordChar ·)).getD false
              if lastW ≠ nextW then some (tl.length, String.mk (l.take tl.length))
              else none
          else none

/-- filtersort.js `regex.unquoted` (`^\s*([^\s()]+)`). -/
def matchUnquoted (l : List Char) : Option (Nat × String) :=
  let ws1 := (l.takeWhile (isJsWs ·)).length
  let rest := l.drop ws1
  let core := rest.takeWhile (fun c => ¬ isJsWs c ∧ c ≠ '(' ∧ c ≠ ')')
  if core = [] then none else some (ws1 + core.length, String.mk core)

/-- The scanning loop of `getTokens`: non-word tokens first, then word
tokens, then an unquoted literal, and as the last resort the trimmed rest
of the string. The fuel is the remaining length plus one; every match
consumes at least one character, so it never runs out. -/
def getTokensGo (wordToks nonWordToks : List String) : Nat → List Char → List String
  | 0, _ => []
  | _, [] => []
  | fuel + 1, l =>
      match matchNonWords nonWordToks l with
      | some (n, tok) => tok :: getTokensGo wordToks nonWordToks fuel (l.drop n)
      | none =>
          match matchWords wordToks l with
          | some (n, tok) => tok :: getTokensGo wordToks nonWordToks fuel (l.drop n)
          | none =>
              match matchUnquoted l with
              | some (n, tok) => tok :: getTokensGo wordToks nonWordToks fuel (l.drop n)
              | none => [jsTrim (String.mk l)]

/-- filtersort.js `getTokens`: split a filter string into recognised
tokens given the word-token and non-word-token lists. -/
def getTokens (input : String) (wordToks nonWordToks : List String) : List String :=
  if wordToks.length = 0 ∨ nonWordToks.length = 0 then []
  else getTokensGo wordToks nonWordToks (input.data.length + 1) input.data

/-- An exact opening marker on the shunting-yard stack. -/
def isOpenParen (t : String) : Bool := t = "(" ∨ t = "!(" ∨ t = "NOT("

/-- Pop operators until an opening marker: the popped run, the marker and
the remaining stack. `none` when no marker exists — the source's `while`
loop never terminates there. -/
def popToParen : List String → Option (List String × String × List String)
  | [] => none
  | t :: rest =>
      if isOpenParen t then some ([], t, rest)
      else (popToParen rest).map fun x => (t :: x.1, x.2.1, x.2.2)

/-- filtersort.js `tokensToRPN` (shunting-yard with negated groups).
`none` models the source's non-terminating loop on an unmatched `)`. -/
def tokensToRPNGo : List String → List String → List String → Option (List String)
  | [], output, stack => some (output ++ stack.reverse)
  | token :: ts, output, stack =>
      let tokenUpper := jsToUpper token
      if isOpTok tokenUpper then
        let popped := stack.takeWhile (fun t => isOpTok t ∧ (opPrec tokenUpper).getD 0 ≤ (opPrec t).getD 0)
        let rest := stack.dropWhile (fun t => isOpTok t ∧ (opPrec tokenUpper).getD 0 ≤ (opPrec t).getD 0)
        tokensToRPNGo ts (output ++ popped) (tokenUpper :: rest)
      else if token = "(" ∨ token = "!(" ∨ tokenUpper = "NOT(" then
        tokensToRPNGo ts output (token :: stack)
      else if token = ")" then
        match popToParen stack with
        | none => none
        | some (popped, mk, rest) =>
            tokensToRPNGo ts (output ++ popped ++ (if mk = "(" then [] else ["!"])) rest
      else
        tokensToRPNGo ts (output ++ [token]) stack

/-- filtersort.js `tokensToRPN`. -/
def tokensToRPN (tokens : List String) : Option (List String) :=
  tokensToRPNGo tokens [] []

/-- filtersort.js `typeMap`: column key to declared type, `str` when the
declaration is missing or empty (`column.type || "str"`). -/
def buildTypeMap (table : List Column) : List (String × String) :=
  table.map fun c =>
    (c.key, match c.type with
            | some t => if t = "" then "str" else t
            | none => "str")

/-- A dry-run stack entry of `checkFilter`: the operand value and its index
in the RPN array (`-1` for an operation-result placeholder). -/
structure COperand where
  token : JSVal
  idx : Int
deriving DecidableEq, Repr

/-- `filterRPN[idx] = v` (a negative index sets a plain object property and
leaves the elements alone). -/
def setRPN (rpn : List JSVal) (idx : Int) (v : JSVal) : List JSVal :=
  if 0 ≤ idx ∧ idx.toNat < rpn.length then rpn.set idx.toNat v else rpn

/-- Outcome of `checkFilter`: boolean `true` plus the rewritten RPN array,
or the error message (with the array as rewritten so far). -/
inductive ChkResult where
  | ok : List JSVal → ChkResult
  | err : String → List JSVal → ChkResult
deriving DecidableEq, Repr

/-- The token loop of `checkFilter` (filtersort.js 170..320). `rvalid`
models the host regex compiler: whether `new RegExp(pattern, "i")`
succeeds. -/
def checkFilterGo (tm : List (String × String)) (rvalid : String → Bool) :
    List JSVal → Nat → List JSVal → List COperand → ChkResult
  | [], _, rpn, stack =>
      if stack.length = 1 then .ok rpn else .err "Filter syntax error (3)" rpn
  | token :: ts, index, rpn, stack =>
      if isOpTok (jsToString token) then
        match stack with
        | o2e :: o1e :: rest =>
            if o1e.idx ≠ -1 ∧ (tm.lookup (jsToString o1e.token)).isNone then
              .err ("Invalid field name: " ++ jsToString o1e.token) rpn
            else
              let stripped : Bool := jsFirstChar (jsToString o2e.token) = some '"'
              let o2tok : JSVal :=
                if stripped then
                  let st := jsToString o2e.token
                  .vstr (jsSubstring st 1 (st.data.length - 1))
                else o2e.token
              let rpn := if stripped then setRPN rpn o2e.idx o2tok else rpn
              let push := fun (rpn' : List JSVal) =>
                checkFilterGo tm rvalid ts (index + 1) rpn' ({ token := .vstr "", idx := -1 } :: rest)
              if token = .vstr "==" ∨ token = .vstr "=" ∨ token = .vstr "!=" then
                push (setRPN rpn o2e.idx (.vstr (jsToUpper (jsToString o2tok))))
              else if token = .vstr "~" ∨ token = .vstr "!~" then
                if rvalid (jsToString o2tok) then
                  push (setRPN rpn o2e.idx (.vregex (jsToString o2tok)))
                else
                  .err ("Invalid regular expression: " ++ jsToString o2tok) rpn
              else if token = .vstr "<" ∨ token = .vstr ">" then
                let type := (tm.lookup (jsToString o1e.token)).getD "str"
                if type = "ip" then
                  let v := ip2long (jsToString o2tok)
                  if v.falsy then .err ("Bad IP address: " ++ jsToString o2tok) rpn
                  else push (setRPN rpn o2e.idx (.vnum v))
                else if type = "date" then
                  if ¬ isYmdShape (jsToString o2tok).data then
                    .err ("Bad date format (use YYYY-MM-DD): " ++ jsToString o2tok) rpn
                  else
                    let v := jsDateParse (jsToString o2tok ++ "T12:00:00Z")
                    if v.falsy ∨ JSNum.lt v (.fin 934366740000) ∨ JSNum.lt (.fin 2147483647000) v then
                      .err ("Unsupported date: " ++ jsToString o2tok) rpn
                    else push (setRPN rpn o2e.idx (.vnum v))
                else if type = "int" ∨ type = "intrange" then
                  let p := jsParseInt (jsToString o2tok)
                  push (setRPN rpn o2e.idx (.vnum (if p.falsy then .fin 0 else p)))
                else if type = "version" then
                  push (setRPN rpn o2e.idx (.vstr (version2hashV o2tok)))
                else if type = "str" then
                  push (setRPN rpn o2e.idx (.vstr (jsToUpper (jsToString o2tok))))
                else
                  push rpn
              else if token = .vstr "@=" then
                if ¬ (tm.lookup (jsToString o1e.token) = some "ip") then
                  .err "@= operator can only be used with IP-like fields" rpn
                else
                  let v := ip2long (jsToString o2tok)
                  if v.falsy then .err ("Bad IP address: " ++ jsToString o2tok) rpn
                  else push (setRPN rpn o2e.idx (.vnum v))
              else
                push rpn
        | _ => .err "Filter syntax error (1)" rpn
      else if token = .vstr "!" then
        match stack with
        | _ :: rest =>
            checkFilterGo tm rvalid ts (index + 1) rpn ({ token := .vstr "", idx := -1 } :: rest)
        | [] => .err "Filter syntax error (2)" rpn
      else
        checkFilterGo tm rvalid ts (index + 1) rpn ({ token := token, idx := (index : Int) } :: stack)

/-- filtersort.js `checkFilter`: dry-run validation of an RPN filter
expression over the column schema, rewriting literal operands in place
into their comparison-ready forms. -/
def checkFilter (table : List Column) (rvalid : String → Bool) (rpn : List JSVal) : ChkResult :=
  checkFilterGo (buildTypeMap table) rvalid rpn 0 rpn []

/-- A data row: column key to normalized cell. -/
def Row : Type := List (String × Cell)

/-- `data[rowID][key]` as an optional cell (absence models the `undefined`
whose member access throws). -/
def rowGet (row : Row) (k : String) : Option Cell :=
  List.lookup k (row : List (String × Cell))

/-- Reading a possibly absent object property yields `undefined`. -/
def getProp : Option JSVal → JSVal
  | none => .vundef
  | some v => v

/-- Outcome of `runFilter`: boolean `true` with the updated display array,
the error message with the display as mutated so far, or a thrown
`TypeError` (dereferencing a missing field). -/
inductive RunOut where
  | ok : List Nat → RunOut
  | err : String → List Nat → RunOut
  | crash : RunOut
deriving DecidableEq, Repr

/-- One token step of the per-row RPN replay in `runFilter`
(filtersort.js 357..425). `none` models a thrown `TypeError`; popping an
empty stack yields `undefined` as in JS. `rtest` is the host regex
matcher. -/
def runStep (rtest : String → String → Bool) (dat : List Row) (rowID : Nat)
    (stack : List JSVal) (token : JSVal) : Option (List JSVal) :=
  if isOpTok (jsToString token) then
    let o2 := (stack.head?).getD .vundef
    let stack1 := stack.tail
    let o1 := (stack1.head?).getD .vundef
    let stack2 := stack1.tail
    let cellOf : JSVal → Option Cell := fun o =>
      (dat.get? rowID).bind fun row => rowGet row (jsToString o)
    if token = .vstr "=" ∨ token = .vstr "==" then
      (cellOf o1).map fun cell => .vbool (jsStrictEq (getProp cell.matchv) o2) :: stack2
    else if token = .vstr "!=" then
      (cellOf o1).map fun cell => .vbool (¬ jsStrictEq (getProp cell.matchv) o2) :: stack2
    else if token = .vstr "~" then
      match cellOf o1, o2 with
      | some cell, .vregex p => some (.vbool (rtest p (jsToString (getProp cell.matchv))) :: stack2)
      | _, _ => none
    else if token = .vstr "!~" then
      match cellOf o1, o2 with
      | some cell, .vregex p => some (.vbool (¬ rtest p (jsToString (getProp cell.matchv))) :: stack2)
      | _, _ => none
    else if token = .vstr "@=" then
      (cellOf o1).map fun cell =>
        let m : Nat := Nat.land (jsToUint32v o2) (jsToUint32v (getProp cell.mask))
        .vbool (jsStrictEq (getProp cell.cmpMin) (.vnum (.fin (m : Rat)))) :: stack2
    else if token = .vstr "<" then
      (cellOf o1).map fun cell =>
        let o1v := if cell.cmpMax ≠ none then getProp cell.cmpMax else getProp cell.cmp
        .vbool (jsLess o1v o2) :: stack2
    else if token = .vstr ">" then
      (cellOf o1).map fun cell =>
        let o1v := if cell.cmpMin ≠ none then getProp cell.cmpMin else getProp cell.cmp
        .vbool (jsLess o2 o1v) :: stack2
    else if token = .vstr "AND" then
      some (jsBitAnd o1 o2 :: stack2)
    else if token = .vstr "OR" then
      some (jsBitOr o1 o2 :: stack2)
    else
      some (.vundef :: stack2)
  else if token = .vstr "!" then
    some (.vbool (¬ jsTruthy ((stack.head?).getD .vundef)) :: stack.tail)
  else
    some (token :: stack)

/-- Replay the whole RPN sequence against one row's fresh stack. -/
def runRow (rtest : String → String → Bool) (dat : List Row) (rowID : Nat)
    (filterRPN : List JSVal) : Option (List JSVal) :=
  filterRPN.foldl (fun st token => st.bind fun stack => runStep rtest dat rowID stack token)
    (some [])

/-- The display loop of `runFilter` (filtersort.js 348..443): every entry
is re-flagged from its row's replay; a wrong final stack size aborts with
error (4), leaving the remaining entries untouched. -/
def runFilterGo (rtest : String → String → Bool) (dat : List Row)
    (filterRPN : List JSVal) : List Nat → List Nat → RunOut
  | [], acc => .ok acc.reverse
  | cur :: restEntries, acc =>
      let rowID := cur &&& 1048575
      match runRow rtest dat rowID filterRPN with
      | none => .crash
      | some stack =>
          match stack with
          | [x] =>
              let newEntry := if jsTruthy x then cur &&& 1048575 else cur ||| 1048576
              runFilterGo rtest dat filterRPN restEntries (newEntry :: acc)
          | _ => .err "Filter syntax error (4)" (acc.reverse ++ cur :: restEntries)

/-- filtersort.js `runFilter`: apply a validated (rewritten) RPN filter to
every display entry. -/
def runFilter (rtest : String → String → Bool) (dat : List Row) (display : List Nat)
    (filterRPN : List JSVal) : RunOut :=
  runFilterGo rtest dat filterRPN display []

/-- Stable sort by descending string length (the `filterTokens` list
preparation; JS `Array.prototype.sort` is stable). -/
def sortByLenDesc (l : List String) : List String :=
  List.insertionSort (fun a b => b.data.length ≤ a.data.length) l

/-- The lazily built `filterTokens.word`: column keys plus the word-like
operators, longest first. -/
def wordTokensOf (table : List Column) : List String :=
  sortByLenDesc (table.map (·.key) ++ ["AND", "OR"])

/-- The lazily built `filterTokens.nonWord`: the symbol operators, longest
first (stable, so the declaration order breaks ties). -/
def nonWordTokensOf : List String :=
  sortByLenDesc ["==", "=", "!=", "~", "!~", "@=", "<", ">"]

/-- Outcome of `filterData`: the returned value (boolean `false`, boolean
`true`, or an error-message string) with the display array, or one of the
two abnormal ends (the unmatched-`)` infinite loop; a thrown error). -/
inductive FilterOut where
  | ret : JSVal → List Nat → FilterOut
  | hang : FilterOut
  | crash : FilterOut
deriving DecidableEq, Repr

/-- filtersort.js `filterData`: the full tokenize → RPN → validate →
evaluate pipeline for one filter submission. -/
def filterData (table : List Column) (rvalid : String → Bool)
    (rtest : String → String → Bool) (dat : List Row) (display : List Nat)
    (filter : String) : FilterOut :=
  if filter = "" then .ret (.vbool false) display
  else
    let tokens := getTokens filter (wordTokensOf table) nonWordTokensOf
    if tokens.length > 2 then
      match tokensToRPN tokens with
      | none => .hang
      | some rpnStrs =>
          match checkFilter table rvalid (rpnStrs.map .vstr) with
          | .err msg _ => .ret (.vstr msg) display
          | .ok rpn =>
              match runFilter rtest dat display rpn with
              | .ok d => .ret (.vbool true) d
              | .err msg d => .ret (.vstr msg) d
              | .crash => .crash
    else .ret (.vbool false) display

/-- `data[e & 0xFFFFF][colKey]` as the sort comparator reads it. -/
def cellAtKey (dat : List Row) (colKey : String) (e : Nat) : Option Cell :=
  (dat.get? (e &&& 1048575)).bind fun row => rowGet row colKey

/-- `$hasProp(data[a][colKey], "cmpMin")` (on a missing row or cell, where
the source would throw, the test is rendered false; the claims' hypotheses
rule that out). -/
def hasCmpMin (dat : List Row) (colKey : String) (a : Nat) : Bool :=
  match cellAtKey dat colKey a with
  | some c => c.cmpMin.isSome
  | none => false

/-- The `cmpMin` ordering key of a display entry. -/
def rangedKeyMin (dat : List Row) (colKey : String) (e : Nat) : JSVal :=
  getProp ((cellAtKey dat colKey e).bind (·.cmpMin))

/-- The `cmpMax` ordering key of a display entry. -/
def rangedKeyMax (dat : List Row) (colKey : String) (e : Nat) : JSVal :=
  getProp ((cellAtKey dat colKey e).bind (·.cmpMax))

/-- The scalar `cmp` ordering key of a display entry. -/
def scalarKey (dat : List Row) (colKey : String) (e : Nat) : JSVal :=
  getProp ((cellAtKey dat colKey e).bind (·.cmp))

/-- The comparator of `sortData` (filtersort.js 517..548): mask the
visibility bit, pick `cmpMin`/`cmpMax` for ranged cells (by direction,
testing the first argument's cell as the source does) or `cmp` otherwise,
compare with JS `<`/`>`. -/
def sortCompare (dat : List Row) (colKey : String) (order : Bool) (a b : Nat) : Int :=
  let keyAt : Nat → JSVal := fun e =>
    if hasCmpMin dat colKey a then
      if order then rangedKeyMin dat colKey e else rangedKeyMax dat colKey e
    else scalarKey dat colKey e
  let ka := keyAt a
  let kb := keyAt b
  if order then
    if jsLess kb ka then 1 else if jsLess ka kb then -1 else 0
  else
    if jsLess ka kb then 1 else if jsLess kb ka then -1 else 0

/-- filtersort.js `sortData`: reorder the display array by the column's
ordering key. `Array.prototype.sort` is required to sort stably, and with
a consistent comparator the stable order is unique, so the embedding uses
insertion sort with `comparator ≤ 0`. -/
def sortData (dat : List Row) (colKey : String) (order : Bool) (display : List Nat) : List Nat :=
  List.insertionSort (fun a b => sortCompare dat colKey order a b ≤ 0) display

/-- The column schema of the repository's yml/specs.yml. -/
def specsTable : List Column :=
  [{ key := "id", type := some "int" },
   { key := "label", type := some "str" },
   { key := "src", type := some "ip" },
   { key := "srcName", type := some "str" },
   { key := "dst", type := some "ip" },
   { key := "dstName", type := some "str" },
   { key := "proto", type := some "str" },
   { key := "ports", type := some "intrange" },
   { key := "ver", type := some "version" },
   { key := "lastupd", type := some "date" }]

/-- The `options:` block of the repository's yml/specs.yml. -/
def specsOptions : SpecsOptions := { htmlAlt := some (.vstr "?") }

/-- A host regex compiler that accepts every pattern. -/
def rvalidAll : String → Bool := fun _ => true

/-- A host regex matcher (its verdicts are irrelevant to the claims). -/
def rtestNone : String → String → Bool := fun _ _ => false

/-- C4: under plain lexicographic string ordering,
`version2hash "1.2.3" < version2hash "1.13.0"` and
`version2hash "1.13.7"` is greater than `version2hash "1.13.7-rc1"` — a
version without a suffix sorts after the same version with an alphabetic
pre-release suffix. -/
theorem c4_version_hash_ordering :
    version2hash "1.2.3" < version2hash "1.13.0" ∧
    version2hash "1.13.7-rc1" < version2hash "1.13.7" := by
  constructor <;> (rw [String.lt_iff_toList_lt]; decide)

/-- C3 counterexample: `version2hash "1.2-rc"` — a dash suffix with no
trailing number — has 42 characters, not the claimed 44. -/
theorem c3_hash_length_counterexample :
    (version2hash "1.2-rc").data.length = 42 ∧
    ¬ (version2hash "1.2-rc").data.length = 44 := by
  decide

/-- C2: on an `int` column whose raw value is the numeric string "80",
`normalizeValue` sets the cell's `match` to the number 80
(`cell.match = cell.cmp` in the int/string branch), not to the upper-cased
display string — contradicting both the claim and the source's own header
comment that `match` is a case-insensitive string representation. -/
theorem c2_int_numeric_string_match_is_number :
    (normalizeValue specsOptions { key := "id", type := some "int" } (.raw (.vstr "80"))).matchv
      = some (.vnum (.fin 80)) ∧
    typeOf (getProp (normalizeValue specsOptions { key := "id", type := some "int" }
      (.raw (.vstr "80"))).matchv) ≠ "String" := by
  decide

/-- C1: the validator accepts the RPN `[f, "and" (quoted), =]` — rewriting
the quoted literal in place to the operator token `AND` — and the
evaluator then executes that rewritten operand as the `AND` operator,
underflows its stack, and dereferences an undefined field: a thrown
`TypeError`, not one value on the stack per row. -/
theorem c1_validated_filter_crashes_evaluator :
    checkFilter [{ key := "f", type := some "str" }] rvalidAll
        [.vstr "f", .vstr "\"and\"", .vstr "="]
      = .ok [.vstr "f", .vstr "AND", .vstr "="] ∧
    runFilter rtestNone [[("f", { value := some (.vstr "x"), matchv := some (.vstr "X") })]]
        [0] [.vstr "f", .vstr "AND", .vstr "="]
      = .crash ∧
    filterData [{ key := "f", type := some "str" }] rvalidAll rtestNone
        [[("f", { value := some (.vstr "x"), matchv := some (.vstr "X") })]] [0] "f = \"and\""
      = .crash := by
  decide

/-- C6 counterexample: on an `ip` column, the ordering-operator literal
`0.0.0.0` is a perfectly parseable dotted quad, yet the validator rejects
it ("Bad IP address") because `ip2long` returns the falsy 0; conversely
`999.0.0.1` is not a valid dotted-quad address (octet above 255), yet the
validator accepts it. -/
theorem c6_bad_ip_counterexample :
    checkFilter [{ key := "src", type := some "ip" }] rvalidAll
        [.vstr "src", .vstr "0.0.0.0", .vstr "<"]
      = .err "Bad IP address: 0.0.0.0" [.vstr "src", .vstr "0.0.0.0", .vstr "<"] ∧
    checkFilter [{ key := "src", type := some "ip" }] rvalidAll
        [.vstr "src", .vstr "999.0.0.1", .vstr "<"]
      = .ok [.vstr "src", .vnum (.fin 16760438785), .vstr "<"] := by
  decide

/-- C10 counterexample: a column declared with the unknown type "weird" is
recorded in the validator's type map as "weird", not "str", and a `<`
literal on it is left unconverted (not upper-cased). -/
theorem c10_unknown_type_counterexample :
    buildTypeMap [{ key := "c", type := some "weird" }] = [("c", "weird")] ∧
    checkFilter [{ key := "c", type := some "weird" }] rvalidAll
        [.vstr "c", .vstr "abc", .vstr "<"]
      = .ok [.vstr "c", .vstr "abc", .vstr "<"] := by
  decide

/-- C5 counterexample: normalizing an already-normalized bad-value cell
(`int` column, raw "abc") a second time appends a duplicate `bad-value`
tag, so the derived field `cssClass` does not stay equal. -/
theorem c5_renormalize_counterexample :
    (normalizeValue specsOptions { key := "id", type := some "int" }
        (.obj (normalizeValue specsOptions { key := "id", type := some "int" }
          (.raw (.vstr "abc"))))).cssClass
      ≠ (normalizeValue specsOptions { key := "id", type := some "int" }
          (.raw (.vstr "abc"))).cssClass := by
  decide

/-- C7: submitting `foo = 1` with `foo` not a declared column key of the
repository's schema returns the "Invalid field name" error string;
validation fails before row evaluation, so the display array — whatever
its entries, indices and hidden-flag bits — is returned unchanged, for
any row data. -/
theorem c7_unknown_field_error (dat : List Row) (display : List Nat) :
    filterData specsTable rvalidAll rtestNone dat display "foo = 1"
      = .ret (.vstr "Invalid field name: foo") display := rfl

/-- C9: `filterData` returns boolean `false` and leaves the display array
untouched whenever the filter string is empty or tokenizes into fewer than
three tokens; the parse/validate/evaluate stages are never entered. -/
theorem c9_short_filters_no_op (table : List Column) (rvalid : String → Bool)
    (rtest : String → String → Bool) (dat : List Row) (display : List Nat) (filter : String)
    (h : filter = "" ∨ (getTokens filter (wordTokensOf table) nonWordTokensOf).length < 3) :
    filterData table rvalid rtest dat display filter = .ret (.vbool false) display := by
  unfold filterData
  rcases h with h | h
  · simp [h]
  · by_cases hf : filter = ""
    · simp [hf]
    · have h3 : ¬ ((getTokens filter (wordTokensOf table) nonWordTokensOf).length > 2) := by
        omega
      simp [hf, h3]

/-- C9 witness: the two-token filter "ab cd" against the repository schema
returns boolean `false` with the display array unchanged. -/
theorem c9_short_filters_no_op_witness :
    (getTokens "ab cd" (wordTokensOf specsTable) nonWordTokensOf).length < 3 ∧
    filterData specsTable rvalidAll rtestNone [] [0, 1] "ab cd" = .ret (.vbool false) [0, 1] :=
  ⟨by decide, c9_short_filters_no_op specsTable rvalidAll rtestNone [] [0, 1] "ab cd"
    (Or.inr (by decide))⟩

/-- Stepping `checkFilter` over a plain operand token pushes it with its
index. -/
theorem cfg_operand (tm : List (String × String)) (rv : String → Bool) (t : JSVal)
    (ts : List JSVal) (idx : Nat) (rpn : List JSVal) (stack : List COperand)
    (h1 : ¬ isOpTok (jsToString t) = true) (h2 : ¬ t = .vstr "!") :
    checkFilterGo tm rv (t :: ts) idx rpn stack
      = checkFilterGo tm rv ts (idx + 1) rpn ({ token := t, idx := (idx : Int) } :: stack) := by
  simp only [checkFilterGo]
  rw [if_neg h1, if_neg h2]

set_option maxHeartbeats 1000000 in
/-- C6 (amended): for a `<` whose left operand is an `ip`-typed field, the
validator fails with "Bad IP address" exactly when `ip2long` of the
literal is falsy (0 or NaN) — not exactly when the literal fails to parse
as a dotted quad: the parseable `0.0.0.0` is rejected and out-of-range
octets are accepted. When it does not fail it rewrites the operand in
place with the `ip2long` value. -/
theorem c6_ip_ordering (lit : String)
    (hop : ¬ isOpTok lit = true) (hbang : ¬ lit = "!") (hq : ¬ jsFirstChar lit = some '"') :
    checkFilter [{ key := "src", type := some "ip" }] rvalidAll
        [.vstr "src", .vstr lit, .vstr "<"]
      = (if (ip2long lit).falsy
         then .err ("Bad IP address: " ++ lit) [.vstr "src", .vstr lit, .vstr "<"]
         else .ok [.vstr "src", .vnum (ip2long lit), .vstr "<"]) := by
  show checkFilterGo [("src", "ip")] rvalidAll [.vstr "src", .vstr lit, .vstr "<"] 0
        [.vstr "src", .vstr lit, .vstr "<"] [] = _
  rw [cfg_operand _ _ _ _ _ _ _ (by decide) (by decide)]
  rw [cfg_operand _ _ _ _ _ _ _ (by simp [jsToString, hop]) (by simp [hbang])]
  simp +decide only [checkFilterGo, jsToString, decide_eq_false hq, setRPN, List.set,
    Bool.false_eq_true, if_false, List.lookup, Option.isNone, Option.getD]
  simp

/-- C6 witness: the literal `1.2.3.4` converts without error to its 32-bit
integer form 16909060. -/
theorem c6_ip_ordering_witness :
    (¬ isOpTok "1.2.3.4" = true ∧ ¬ "1.2.3.4" = "!" ∧ ¬ jsFirstChar "1.2.3.4" = some '"') ∧
    checkFilter [{ key := "src", type := some "ip" }] rvalidAll
        [.vstr "src", .vstr "1.2.3.4", .vstr "<"]
      = .ok [.vstr "src", .vnum (.fin 16909060), .vstr "<"] := by
  refine ⟨by decide, ?_⟩
  rw [c6_ip_ordering "1.2.3.4" (by decide) (by decide) (by decide), if_neg (by decide)]
  decide

/-- The bad-value fallback never looks at the declared column type. -/
theorem normFallback_type_irrel (opts : SpecsOptions) (col : Column) (t : Option String)
    (c : Cell) : normFallback opts { col with type := t } c = normFallback opts col c := rfl

set_option maxHeartbeats 1000000 in
/-- C10 (amended): a column whose declared type is missing or unknown is
normalized exactly like a `str` column; but only a missing (or empty)
declaration makes the validator's type map record `str` (so that `<`/`>`
literals are upper-cased like plain strings) — an unknown non-empty type
name is recorded verbatim and, per the counterexample, gets no literal
conversion at all. -/
theorem c10_unknown_type_as_str (opts : SpecsOptions) (col : Column) (input : CellInput)
    (lit : String)
    (ht : ¬ col.type = some "int" ∧ ¬ col.type = some "intrange" ∧ ¬ col.type = some "ip" ∧
          ¬ col.type = some "date" ∧ ¬ col.type = some "version")
    (hop : ¬ isOpTok lit = true) (hbang : ¬ lit = "!") (hq : ¬ jsFirstChar lit = some '"') :
    normalizeValue opts col input = normalizeValue opts { col with type := some "str" } input ∧
    buildTypeMap [{ key := "c" }] = [("c", "str")] ∧
    checkFilter [{ key := "c" }] rvalidAll [.vstr "c", .vstr lit, .vstr "<"]
      = .ok [.vstr "c", .vstr (jsToUpper lit), .vstr "<"] := by
  obtain ⟨h1, h2, h3, h4, h5⟩ := ht
  refine ⟨?_, rfl, ?_⟩
  · unfold normalizeValue normBody normCleanse
    simp +decide [h1, h2, h3, h4, h5, normFallback_type_irrel]
  · show checkFilterGo [("c", "str")] rvalidAll [.vstr "c", .vstr lit, .vstr "<"] 0
        [.vstr "c", .vstr lit, .vstr "<"] [] = _
    rw [cfg_operand _ _ _ _ _ _ _ (by decide) (by decide)]
    rw [cfg_operand _ _ _ _ _ _ _ (by simp [jsToString, hop]) (by simp [hbang])]
    simp +decide only [checkFilterGo, jsToString, decide_eq_false hq, setRPN, List.set,
      Bool.false_eq_true, if_false, List.lookup, Option.isNone, Option.getD]
    simp

/-- C10 witness: a column with no declared type behaves as `str` in both
subsystems, and the `<` literal "abc" is upper-cased to "ABC". -/
theorem c10_unknown_type_as_str_witness :
    ((¬ (some "weird" : Option String) = some "int" ∧
      ¬ (some "weird" : Option String) = some "intrange" ∧
      ¬ (some "weird" : Option String) = some "ip" ∧
      ¬ (some "weird" : Option String) = some "date" ∧
      ¬ (some "weird" : Option String) = some "version") ∧
     ¬ isOpTok "abc" = true ∧ ¬ "abc" = "!" ∧ ¬ jsFirstChar "abc" = some '"') ∧
    normalizeValue specsOptions { key := "c", type := some "weird" } (.raw (.vstr "x"))
      = normalizeValue specsOptions { key := "c", type := some "str" } (.raw (.vstr "x")) ∧
    checkFilter [{ key := "c" }] rvalidAll [.vstr "c", .vstr "abc", .vstr "<"]
      = .ok [.vstr "c", .vstr (jsToUpper "abc"), .vstr "<"] := by
  refine ⟨by decide, ?_, ?_⟩
  · exact (c10_unknown_type_as_str specsOptions { key := "c", type := some "weird" }
      (.raw (.vstr "x")) "abc" (by decide) (by decide) (by decide) (by decide)).1
  · exact (c10_unknown_type_as_str specsOptions { key := "c", type := some "weird" }
      (.raw (.vstr "x")) "abc" (by decide) (by decide) (by decide) (by decide)).2.2

/-- Appending strings concatenates their character lists. -/
theorem strData_append (a b : String) : (a ++ b).data = a.data ++ b.data := rfl

/-- Each dotted group contributes exactly 6 characters to the hash. -/
theorem len_pad6 (g : String) : (jsPadStart (jsSubstring g 0 6) 6 ' ').data.length = 6 := by
  simp [jsPadStart, jsSubstring]

/-- The dash suffix contributes exactly 2 characters. -/
theorem len_pad2 (g : String) : (jsPadEnd (jsSubstring g 0 2) 2 '~').data.length = 2 := by
  simp [jsPadEnd, jsSubstring]

/-- `padEnd` pads up to the requested width. -/
theorem len_padEnd (s : String) (n : Nat) (c : Char) :
    (jsPadEnd s n c).data.length = max s.data.length n := by
  simp [jsPadEnd]
  omega

/-- Length of a character repeat. -/
theorem len_repeat (c : Char) (n : Nat) : (jsRepeat c n).data.length = n := by
  simp [jsRepeat]

/-- The scan invariant of `version2hash`: the growing hash is a multiple of
6 up to 30 characters (pre-dash groups), or exactly 36 (groups closed), or
exactly 38 (suffix emitted). -/
def V2hInv (h : String) : Prop :=
  (h.data.length ≤ 30 ∧ h.data.length % 6 = 0) ∨ h.data.length = 36 ∨ h.data.length = 38

/-- One scan step preserves the hash-length invariant. -/
theorem v2hStep_inv (h g : String) (c : Char) (H : V2hInv h) :
    V2hInv (version2hashStep h g c).1 := by
  unfold V2hInv at *
  unfold version2hashStep
  by_cases h1 : h.data.length < 36
  · rw [if_pos h1]
    by_cases h2 : c = '.'
    · rw [if_pos h2]
      simp only [strData_append, List.length_append, len_pad6]
      omega
    · rw [if_neg h2]
      by_cases h3 : c = '-'
      · rw [if_pos h3]
        dsimp only
        by_cases h4 : (h ++ jsPadStart (jsSubstring g 0 6) 6 ' ').data.length < 36
        · rw [if_pos h4]
          simp only [len_padEnd]
          omega
        · rw [if_neg h4]
          simp only [strData_append, List.length_append, len_pad6] at h4 ⊢
          omega
      · rw [if_neg h3]
        exact H
  · rw [if_neg h1]
    by_cases h5 : h.data.length < 38
    · rw [if_pos h5]
      by_cases h6 : c < '0' ∨ c > '9'
      · rw [if_pos h6]
        exact H
      · rw [if_neg h6]
        simp only [strData_append, List.length_append, len_pad2]
        omega
    · rw [if_neg h5]
      exact H

/-- The full scan preserves the hash-length invariant. -/
theorem v2hFold_inv (l : List Char) (st : String × String) (H : V2hInv st.1) :
    V2hInv (l.foldl (fun st c => version2hashStep st.1 st.2 c) st).1 := by
  induction l generalizing st with
  | nil => exact H
  | cons c r ih =>
      simp only [List.foldl_cons]
      exact ih _ (v2hStep_inv st.1 st.2 c H)

/-- C3 (amended): `version2hash` always returns 44 or 42 characters — 44 on
the spec's typical inputs, 42 when the suffix region is never emitted (a
dash suffix with no trailing digit, or a sixth dotted group closing the
hash with no dash ever seen). -/
theorem c3_version_hash_length (ver : String) :
    (version2hash ver).data.length = 44 ∨ (version2hash ver).data.length = 42 := by
  unfold version2hash
  split_ifs with h0
  · left
    decide
  · have H := v2hFold_inv ver.data ("", "") (by left; exact ⟨by decide, by decide⟩)
    dsimp only
    set F := List.foldl (fun (st : String × String) c => version2hashStep st.1 st.2 c) ("", "") ver.data with hF
    unfold V2hInv at H
    have lenh : (F.1 ++ jsPadStart (jsSubstring F.2 0 6) 6 ' ').data.length
        = F.1.data.length + 6 := by
      simp only [strData_append, List.length_append, len_pad6]
    rcases H with ⟨hle, hmod⟩ | h36 | h38
    · have e1 : (F.1.data.length < 36) = True := eq_true (by omega)
      by_cases h30 : F.1.data.length = 30
      · have e2 : ((F.1 ++ jsPadStart (jsSubstring F.2 0 6) 6 ' ').data.length < 36) = False :=
          eq_false (by omega)
        have e3 : ((F.1 ++ jsPadStart (jsSubstring F.2 0 6) 6 ' ').data.length < 44) = True :=
          eq_true (by omega)
        simp only [e1, e2, e3, if_true, if_false]
        right
        simp only [strData_append, List.length_append, len_pad6]
        omega
      · have e2 : ((F.1 ++ jsPadStart (jsSubstring F.2 0 6) 6 ' ').data.length < 36) = True :=
          eq_true (by omega)
        have lenh1 : (jsPadEnd (F.1 ++ jsPadStart (jsSubstring F.2 0 6) 6 ' ') 36 ' '
            ++ jsRepeat '~' 2 ++ jsRepeat ' ' 6).data.length = 44 := by
          simp only [strData_append, List.length_append, len_padEnd, len_repeat, len_pad6]
          omega
        have e3 : ((jsPadEnd (F.1 ++ jsPadStart (jsSubstring F.2 0 6) 6 ' ') 36 ' '
            ++ jsRepeat '~' 2 ++ jsRepeat ' ' 6).data.length < 44) = False := eq_false (by omega)
        simp only [e1, e2, e3, if_true, if_false]
        left
        exact lenh1
    · have e1 : (F.1.data.length < 36) = False := eq_false (by omega)
      have e2 : (F.1.data.length < 44) = True := eq_true (by omega)
      simp only [e1, e2, if_true, if_false]
      right
      simp only [strData_append, List.length_append, len_pad6]
      omega
    · have e1 : (F.1.data.length < 36) = False := eq_false (by omega)
      have e2 : (F.1.data.length < 44) = True := eq_true (by omega)
      simp only [e1, e2, if_true, if_false]
      left
      simp only [strData_append, List.length_append, len_pad6]
      omega

/-- JS `<` on two number values is the numeric comparison. -/
theorem jsLess_vnum (a b : JSNum) : jsLess (.vnum a) (.vnum b) = JSNum.lt a b := rfl

/-- JS numeric `<` is asymmetric. -/
theorem jsNumLt_asymm (a b : JSNum) (h : JSNum.lt a b = true) : ¬ JSNum.lt b a = true := by
  cases a <;> cases b <;> simp_all [JSNum.lt]
  exact le_of_lt h

/-- On NaN-free numbers, JS `not-<` is transitive. -/
theorem jsNumNotLt_trans (a b c : JSNum) (ha : ¬ a = JSNum.nan) (hb : ¬ b = JSNum.nan)
    (hc : ¬ c = JSNum.nan) (h1 : ¬ JSNum.lt b a = true) (h2 : ¬ JSNum.lt c b = true) :
    ¬ JSNum.lt c a = true := by
  cases a <;> cases b <;> cases c <;> simp_all [JSNum.lt] <;> linarith

/-- The property holds a non-NaN number. -/
def isGoodNumOpt : Option JSVal → Bool
  | some (.vnum m) => ¬ m = JSNum.nan
  | _ => false

/-- Shape of a property satisfying `isGoodNumOpt`. -/
theorem isGoodNumOpt_spec (o : Option JSVal) (h : isGoodNumOpt o = true) :
    ∃ m, o = some (.vnum m) ∧ ¬ m = JSNum.nan := by
  unfold isGoodNumOpt at h
  split at h
  · next m => exact ⟨m, rfl, by simpa using h⟩
  · exact absurd h (by simp)

/-- A display entry carries the ranged representation: its row and cell
exist and both bounds are non-NaN numbers. -/
def wellRanged (dat : List Row) (colKey : String) (e : Nat) : Bool :=
  match cellAtKey dat colKey e with
  | some c => isGoodNumOpt c.cmpMin && isGoodNumOpt c.cmpMax
  | none => false

/-- A well-ranged entry satisfies the comparator's `cmpMin` presence test. -/
theorem hasCmpMin_of (dat : List Row) (colKey : String) (e : Nat)
    (h : wellRanged dat colKey e = true) : hasCmpMin dat colKey e = true := by
  unfold wellRanged at h
  unfold hasCmpMin
  cases hcell : cellAtKey dat colKey e with
  | none => rw [hcell] at h; exact absurd h (by simp)
  | some c =>
      rw [hcell] at h
      obtain ⟨m, hm, _⟩ := isGoodNumOpt_spec _ (by exact (Bool.and_eq_true ..|>.mp h).1)
      simp [hm]

/-- The `cmpMin` key of a well-ranged entry is a non-NaN number. -/
theorem rangedKeyMin_of (dat : List Row) (colKey : String) (e : Nat)
    (h : wellRanged dat colKey e = true) :
    ∃ m, rangedKeyMin dat colKey e = .vnum m ∧ ¬ m = JSNum.nan := by
  unfold wellRanged at h
  unfold rangedKeyMin
  cases hcell : cellAtKey dat colKey e with
  | none => rw [hcell] at h; exact absurd h (by simp)
  | some c =>
      rw [hcell] at h
      obtain ⟨m, hm, hnan⟩ := isGoodNumOpt_spec _ (by exact (Bool.and_eq_true ..|>.mp h).1)
      exact ⟨m, by simp [hm, getProp], hnan⟩

/-- The `cmpMax` key of a well-ranged entry is a non-NaN number. -/
theorem rangedKeyMax_of (dat : List Row) (colKey : String) (e : Nat)
    (h : wellRanged dat colKey e = true) :
    ∃ m, rangedKeyMax dat colKey e = .vnum m ∧ ¬ m = JSNum.nan := by
  unfold wellRanged at h
  unfold rangedKeyMax
  cases hcell : cellAtKey dat colKey e with
  | none => rw [hcell] at h; exact absurd h (by simp)
  | some c =>
      rw [hcell] at h
      obtain ⟨m, hm, hnan⟩ := isGoodNumOpt_spec _ (by exact (Bool.and_eq_true ..|>.mp h).2)
      exact ⟨m, by simp [hm, getProp], hnan⟩

/-- On a well-ranged first argument, the ascending comparator is
non-positive exactly when the second entry's `cmpMin` is not below the
first's. -/
theorem sortCompare_le_asc (dat : List Row) (colKey : String) (a b : Nat)
    (ha : wellRanged dat colKey a = true) :
    (sortCompare dat colKey true a b ≤ 0) ↔
      ¬ jsLess (rangedKeyMin dat colKey b) (rangedKeyMin dat colKey a) = true := by
  unfold sortCompare
  simp only [hasCmpMin_of dat colKey a ha, if_true]
  by_cases h : jsLess (rangedKeyMin dat colKey b) (rangedKeyMin dat colKey a) = true
  · simp [h]
  · simp only [h, if_false]
    split_ifs <;> simp_all

/-- On a well-ranged first argument, the descending comparator is
non-positive exactly when the first entry's `cmpMax` is not below the
second's. -/
theorem sortCompare_le_desc (dat : List Row) (colKey : String) (a b : Nat)
    (ha : wellRanged dat colKey a = true) :
    (sortCompare dat colKey false a b ≤ 0) ↔
      ¬ jsLess (rangedKeyMax dat colKey a) (rangedKeyMax dat colKey b) = true := by
  unfold sortCompare
  simp only [hasCmpMin_of dat colKey a ha, if_true]
  by_cases h : jsLess (rangedKeyMax dat colKey a) (rangedKeyMax dat colKey b) = true
  · simp [h]
  · simp only [h, if_false]
    split_ifs <;> simp_all

/-- The comparator relation is total on well-ranged entries. -/
theorem sortCompare_total (dat : List Row) (colKey : String) (order : Bool) (a b : Nat)
    (ha : wellRanged dat colKey a = true) (hb : wellRanged dat colKey b = true) :
    sortCompare dat colKey order a b ≤ 0 ∨ sortCompare dat colKey order b a ≤ 0 := by
  cases order
  · obtain ⟨ma, hma, _⟩ := rangedKeyMax_of dat colKey a ha
    obtain ⟨mb, hmb, _⟩ := rangedKeyMax_of dat colKey b hb
    rw [sortCompare_le_desc dat colKey a b ha, sortCompare_le_desc dat colKey b a hb,
      hma, hmb, jsLess_vnum, jsLess_vnum]
    by_cases h : JSNum.lt ma mb = true
    · exact Or.inr (jsNumLt_asymm ma mb h)
    · exact Or.inl h
  · obtain ⟨ma, hma, _⟩ := rangedKeyMin_of dat colKey a ha
    obtain ⟨mb, hmb, _⟩ := rangedKeyMin_of dat colKey b hb
    rw [sortCompare_le_asc dat colKey a b ha, sortCompare_le_asc dat colKey b a hb,
      hma, hmb, jsLess_vnum, jsLess_vnum]
    by_cases h : JSNum.lt mb ma = true
    · exact Or.inr (jsNumLt_asymm mb ma h)
    · exact Or.inl h

/-- The comparator relation is transitive on well-ranged entries. -/
theorem sortCompare_trans (dat : List Row) (colKey : String) (order : Bool) (a b c : Nat)
    (ha : wellRanged dat colKey a = true) (hb : wellRanged dat colKey b = true)
    (hc : wellRanged dat colKey c = true)
    (h1 : sortCompare dat colKey order a b ≤ 0) (h2 : sortCompare dat colKey order b c ≤ 0) :
    sortCompare dat colKey order a c ≤ 0 := by
  cases order
  · obtain ⟨ma, hma, na⟩ := rangedKeyMax_of dat colKey a ha
    obtain ⟨mb, hmb, nb⟩ := rangedKeyMax_of dat colKey b hb
    obtain ⟨mc, hmc, nc⟩ := rangedKeyMax_of dat colKey c hc
    rw [sortCompare_le_desc dat colKey a b ha, hma, hmb, jsLess_vnum] at h1
    rw [sortCompare_le_desc dat colKey b c hb, hmb, hmc, jsLess_vnum] at h2
    rw [sortCompare_le_desc dat colKey a c ha, hma, hmc, jsLess_vnum]
    exact jsNumNotLt_trans mc mb ma nc nb na h2 h1
  · obtain ⟨ma, hma, na⟩ := rangedKeyMin_of dat colKey a ha
    obtain ⟨mb, hmb, nb⟩ := rangedKeyMin_of dat colKey b hb
    obtain ⟨mc, hmc, nc⟩ := rangedKeyMin_of dat colKey c hc
    rw [sortCompare_le_asc dat colKey a b ha, hma, hmb, jsLess_vnum] at h1
    rw [sortCompare_le_asc dat colKey b c hb, hmb, hmc, jsLess_vnum] at h2
    rw [sortCompare_le_asc dat colKey a c ha, hma, hmc, jsLess_vnum]
    exact jsNumNotLt_trans ma mb mc na nb nc h1 h2

/-- Inserting into a sorted list stays sorted, for a relation total and
transitive on a predicate all elements satisfy. -/
theorem orderedInsert_pairwise_G {α : Type} (r : α → α → Prop) [DecidableRel r] (G : α → Prop)
    (tot : ∀ a b, G a → G b → r a b ∨ r b a)
    (htrans : ∀ a b c, G a → G b → G c → r a b → r b c → r a c)
    (a : α) (l : List α) (ha : G a) (hl : ∀ x ∈ l, G x) (hp : l.Pairwise r) :
    (l.orderedInsert r a).Pairwise r := by
  induction l with
  | nil => simp [List.orderedInsert]
  | cons b t ih =>
      have hb : G b := hl b (List.mem_cons_self b t)
      have ht : ∀ x ∈ t, G x := fun x hx => hl x (List.mem_cons_of_mem b hx)
      rw [List.pairwise_cons] at hp
      obtain ⟨hbt, hpt⟩ := hp
      rw [List.orderedInsert]
      split_ifs with hab
      · refine List.Pairwise.cons ?_ (List.Pairwise.cons hbt hpt)
        intro x hx
        rcases List.mem_cons.mp hx with rfl | hx
        · exact hab
        · exact htrans a b x ha hb (ht x hx) hab (hbt x hx)
      · have hba : r b a := (tot a b ha hb).resolve_left hab
        refine List.Pairwise.cons ?_ (ih ht hpt)
        intro x hx
        rcases (List.mem_orderedInsert r).mp hx with rfl | hx
        · exact hba
        · exact hbt x hx

/-- Insertion sort sorts, for a relation total and transitive on a
predicate all elements satisfy. -/
theorem insertionSort_pairwise_G {α : Type} (r : α → α → Prop) [DecidableRel r] (G : α → Prop)
    (tot : ∀ a b, G a → G b → r a b ∨ r b a)
    (htrans : ∀ a b c, G a → G b → G c → r a b → r b c → r a c)
    (l : List α) (hl : ∀ x ∈ l, G x) :
    (List.insertionSort r l).Pairwise r := by
  induction l with
  | nil => simp
  | cons a t ih =>
      rw [List.insertionSort]
      exact orderedInsert_pairwise_G r G tot htrans a _ (hl a (List.mem_cons_self a t))
        (fun x hx => hl x (List.mem_cons_of_mem a ((List.mem_insertionSort r).mp hx)))
        (ih (fun x hx => hl x (List.mem_cons_of_mem a hx)))

/-- C8: for a column whose cells all carry the ranged representation,
`sortData` returns a permutation of the display entries (each packed
hidden-flag bit travelling with its row index), ascending order arranges
them by non-decreasing `cmpMin`, descending order by non-increasing
`cmpMax`, and in both directions entries with equal keys keep their
original relative order (stability). -/
theorem c8_sortData_ranged (dat : List Row) (colKey : String) (display : List Nat)
    (hG : ∀ e ∈ display, wellRanged dat colKey e = true) :
    List.Perm (sortData dat colKey true display) display ∧
    List.Perm (sortData dat colKey false display) display ∧
    (sortData dat colKey true display).Pairwise
      (fun x y => ¬ jsLess (rangedKeyMin dat colKey y) (rangedKeyMin dat colKey x) = true) ∧
    (sortData dat colKey false display).Pairwise
      (fun x y => ¬ jsLess (rangedKeyMax dat colKey x) (rangedKeyMax dat colKey y) = true) ∧
    (∀ x y, [x, y].Sublist display → rangedKeyMin dat colKey x = rangedKeyMin dat colKey y →
      [x, y].Sublist (sortData dat colKey true display)) ∧
    (∀ x y, [x, y].Sublist display → rangedKeyMax dat colKey x = rangedKeyMax dat colKey y →
      [x, y].Sublist (sortData dat colKey false display)) := by
  unfold sortData
  refine ⟨List.perm_insertionSort _ display, List.perm_insertionSort _ display, ?_, ?_, ?_, ?_⟩
  · have hp := insertionSort_pairwise_G (fun a b => sortCompare dat colKey true a b ≤ 0)
      (fun e => wellRanged dat colKey e = true)
      (fun a b ha hb => sortCompare_total dat colKey true a b ha hb)
      (fun a b c ha hb hc h1 h2 => sortCompare_trans dat colKey true a b c ha hb hc h1 h2)
      display hG
    refine List.Pairwise.imp_of_mem ?_ hp
    intro a b hma _ hr
    have ha := hG a ((List.mem_insertionSort _).mp hma)
    exact (sortCompare_le_asc dat colKey a b ha).mp hr
  · have hp := insertionSort_pairwise_G (fun a b => sortCompare dat colKey false a b ≤ 0)
      (fun e => wellRanged dat colKey e = true)
      (fun a b ha hb => sortCompare_total dat colKey false a b ha hb)
      (fun a b c ha hb hc h1 h2 => sortCompare_trans dat colKey false a b c ha hb hc h1 h2)
      display hG
    refine List.Pairwise.imp_of_mem ?_ hp
    intro a b hma _ hr
    have ha := hG a ((List.mem_insertionSort _).mp hma)
    exact (sortCompare_le_desc dat colKey a b ha).mp hr
  · intro x y hsub hkey
    have hx := hG x (hsub.subset (by simp))
    obtain ⟨m, hm, _⟩ := rangedKeyMin_of dat colKey x hx
    have hr : sortCompare dat colKey true x y ≤ 0 := by
      rw [sortCompare_le_asc dat colKey x y hx, ← hkey, hm, jsLess_vnum]
      exact fun hlt => (jsNumLt_asymm m m hlt) hlt
    exact List.pair_sublist_insertionSort hr hsub
  · intro x y hsub hkey
    have hx := hG x (hsub.subset (by simp))
    obtain ⟨m, hm, _⟩ := rangedKeyMax_of dat colKey x hx
    have hr : sortCompare dat colKey false x y ≤ 0 := by
      rw [sortCompare_le_desc dat colKey x y hx, hkey]
      rw [hkey] at hm
      rw [hm, jsLess_vnum]
      exact fun hlt => (jsNumLt_asymm m m hlt) hlt
    exact List.pair_sublist_insertionSort hr hsub

/-- Three intrange-like rows for the C8 witness (5..10, 1..20, 5..3), the
second display entry carrying the hidden-by-filter bit. -/
def datRangedW : List Row :=
  [[("p", { cmpMin := some (.vnum (.fin 5)), cmpMax := some (.vnum (.fin 10)) })],
   [("p", { cmpMin := some (.vnum (.fin 1)), cmpMax := some (.vnum (.fin 20)) })],
   [("p", { cmpMin := some (.vnum (.fin 5)), cmpMax := some (.vnum (.fin 3)) })]]

/-- C8 witness: on the concrete rows the hypothesis holds and all six
conclusions follow by applying the theorem. -/
theorem c8_sortData_ranged_witness :
    (∀ e ∈ [0, 1048577, 2], wellRanged datRangedW "p" e = true) ∧
    (List.Perm (sortData datRangedW "p" true [0, 1048577, 2]) [0, 1048577, 2] ∧
     List.Perm (sortData datRangedW "p" false [0, 1048577, 2]) [0, 1048577, 2] ∧
     (sortData datRangedW "p" true [0, 1048577, 2]).Pairwise
       (fun x y => ¬ jsLess (rangedKeyMin datRangedW "p" y) (rangedKeyMin datRangedW "p" x) = true) ∧
     (sortData datRangedW "p" false [0, 1048577, 2]).Pairwise
       (fun x y => ¬ jsLess (rangedKeyMax datRangedW "p" x) (rangedKeyMax datRangedW "p" y) = true) ∧
     (∀ x y, [x, y].Sublist [0, 1048577, 2] →
       rangedKeyMin datRangedW "p" x = rangedKeyMin datRangedW "p" y →
       [x, y].Sublist (sortData datRangedW "p" true [0, 1048577, 2])) ∧
     (∀ x y, [x, y].Sublist [0, 1048577, 2] →
       rangedKeyMax datRangedW "p" x = rangedKeyMax datRangedW "p" y →
       [x, y].Sublist (sortData datRangedW "p" false [0, 1048577, 2]))) :=
  ⟨by decide, c8_sortData_ranged datRangedW "p" [0, 1048577, 2] (by decide)⟩

/-- `keepStr` always yields a string property. -/
theorem keepStr_ne_none (cur : Option JSVal) (alt : String) : ¬ keepStr cur alt = none := by
  unfold keepStr
  split <;> simp

/-- `keepStr` never yields `undefined`. -/
theorem keepStr_ne_undef (cur : Option JSVal) (alt : String) :
    ¬ keepStr cur alt = some .vundef := by
  unfold keepStr
  split <;> simp

/-- A kept-or-derived string property is stable under a second keep. -/
theorem keepStr_keepStr (cur : Option JSVal) (alt alt' : String) :
    keepStr (keepStr cur alt) alt' = keepStr cur alt := by
  cases cur with
  | none => rfl
  | some v => cases v <;> rfl

/-- Keeping a property equal to the derived value changes nothing. -/
theorem keepNum_self (a : JSVal) : keepNum (some a) a = some a := by
  cases a <;> (first | rfl | (simp only [keepNum]; split_ifs <;> rfl))

/-- A kept-or-derived numeric property is stable under a second keep with
the same derived value. -/
theorem keepNum_keepNum (cur : Option JSVal) (a : JSVal) :
    keepNum (keepNum cur a) a = keepNum cur a := by
  cases cur with
  | none =>
      have h1 : keepNum (none : Option JSVal) a = some a := rfl
      rw [h1]
      exact keepNum_self a
  | some v =>
      cases v with
      | vnum n =>
          by_cases hn : n = JSNum.nan
          · have h1 : keepNum (some (JSVal.vnum n)) a = some a := by simp [keepNum, hn]
            rw [h1]
            exact keepNum_self a
          · have h1 : keepNum (some (JSVal.vnum n)) a = some (JSVal.vnum n) := by
              simp [keepNum, hn]
            rw [h1, h1]
      | vundef =>
          have h1 : keepNum (some JSVal.vundef) a = some a := rfl
          rw [h1]
          exact keepNum_self a
      | vnull =>
          have h1 : keepNum (some JSVal.vnull) a = some a := rfl
          rw [h1]
          exact keepNum_self a
      | vbool b =>
          have h1 : keepNum (some (JSVal.vbool b)) a = some a := rfl
          rw [h1]
          exact keepNum_self a
      | vstr s =>
          have h1 : keepNum (some (JSVal.vstr s)) a = some a := rfl
          rw [h1]
          exact keepNum_self a
      | varr xs =>
          have h1 : keepNum (some (JSVal.varr xs)) a = some a := rfl
          rw [h1]
          exact keepNum_self a
      | vdate t =>
          have h1 : keepNum (some (JSVal.vdate t)) a = some a := rfl
          rw [h1]
          exact keepNum_self a
      | vregex p =>
          have h1 : keepNum (some (JSVal.vregex p)) a = some a := rfl
          rw [h1]
          exact keepNum_self a

/-- Pushing a tag onto an array-valued cssClass appends it. -/
theorem pushClass_varr (l : List String) (t : String) :
    pushClass (some (.varr l)) t = some (.varr (l ++ [t])) := rfl

/-- For a scalar-typed column, cleansing removes the ranged fields and the
mask. -/
theorem cleanse_scalar {col : Column} (h1 : ¬ col.type = some "intrange")
    (h2 : ¬ col.type = some "ip") (c : Cell) :
    normCleanse col c = { c with cmpMin := none, cmpMax := none, mask := none } := by
  unfold normCleanse
  have hA : (col.type = some "intrange" ∨ col.type = some "ip") = False := by simp [h1, h2]
  have hB : (¬ col.type = some "ip") = True := eq_true h2
  simp only [hA, hB, if_false, and_true]
  by_cases hm : c.mask = none
  · rw [if_neg (by simp [hm])]
    cases c
    simp_all
  · rw [if_pos (by simpa using hm)]

/-- For an intrange column, cleansing removes the scalar key and the mask. -/
theorem cleanse_intrange {col : Column} (h1 : col.type = some "intrange") (c : Cell) :
    normCleanse col c = { c with cmp := none, mask := none } := by
  unfold normCleanse
  have hA : (col.type = some "intrange" ∨ col.type = some "ip") = True := by simp [h1]
  have hB : (¬ col.type = some "ip") = True := eq_true (by simp [h1])
  simp only [hA, hB, if_true, and_true]
  by_cases hm : c.mask = none
  · rw [if_neg (by simp [hm])]
    cases c
    simp_all
  · rw [if_pos (by simpa using hm)]

/-- For an ip column, cleansing removes only the scalar key. -/
theorem cleanse_ip {col : Column} (h1 : col.type = some "ip") (c : Cell) :
    normCleanse col c = { c with cmp := none } := by
  unfold normCleanse
  have hA : (col.type = some "intrange" ∨ col.type = some "ip") = True := by simp [h1]
  have hB : (¬ col.type = some "ip") = False := by simp [h1]
  simp only [hA, hB, if_true, and_false, if_false]

/-- A kept-or-derived numeric property is always of class Number. -/
theorem isNumClassOpt_keepNum (cur : Option JSVal) (m : JSNum) :
    isNumClassOpt (keepNum cur (.vnum m)) = true := by
  cases cur with
  | none => rfl
  | some v =>
      cases v with
      | vnum n =>
          simp only [keepNum]
          split_ifs <;> rfl
      | vundef => rfl
      | vnull => rfl
      | vbool b => rfl
      | vstr s => rfl
      | varr xs => rfl
      | vdate t => rfl
      | vregex p => rfl

/-- Re-normalization changes none of the derived fields of a cell except
possibly appending one duplicate bad-value tag to cssClass. -/
def restabOK (c1 c2 : Cell) : Prop :=
  c2.html = c1.html ∧ c2.matchv = c1.matchv ∧ c2.cmp = c1.cmp ∧ c2.cmpMin = c1.cmpMin ∧
  c2.cmpMax = c1.cmpMax ∧ c2.mask = c1.mask ∧
  (c2.cssClass = c1.cssClass ∨
    ∃ l, c1.cssClass = some (.varr l) ∧ c2.cssClass = some (.varr (l ++ ["bad-value"])))

/-- The `int` branch re-stabilizes. -/
theorem restab_int (opts : SpecsOptions) (col : Column) (c0 : Cell)
    (hty : col.type = some "int") (v : JSVal) (hv : c0.value = some v)
    (l0 : List String) (hcss : c0.cssClass = some (.varr l0)) :
    restabOK (normCleanse col (normFallback opts col (normInt c0)))
      (normCleanse col (normFallback opts col
        (normInt (normCleanse col (normFallback opts col (normInt c0)))))) := by
  have h1 : ¬ col.type = some "intrange" := by simp [hty]
  have h2 : ¬ col.type = some "ip" := by simp [hty]
  unfold restabOK
  cases v with
  | vnum n =>
      by_cases hn : n = JSNum.nan
      · subst hn
        simp [normInt, hv, normFallback, cleanse_scalar h1 h2, pushClass, hcss]
      · simp [normInt, hv, hn, normFallback, cleanse_scalar h1 h2, keepStr_ne_undef,
          keepStr_ne_none, keepStr_keepStr, keepNum_keepNum, hcss]
  | vstr s =>
      by_cases hnum : jsStrIsNumeric s = true
      · simp [normInt, hv, hnum, normFallback, cleanse_scalar h1 h2, hcss]
      · simp [normInt, hv, hnum, normFallback, cleanse_scalar h1 h2, pushClass, hcss]
  | vundef => simp [normInt, hv, normFallback, cleanse_scalar h1 h2, pushClass, hcss]
  | vnull => simp [normInt, hv, normFallback, cleanse_scalar h1 h2, pushClass, hcss]
  | vbool b => simp [normInt, hv, normFallback, cleanse_scalar h1 h2, pushClass, hcss]
  | varr xs => simp [normInt, hv, normFallback, cleanse_scalar h1 h2, pushClass, hcss]
  | vdate t => simp [normInt, hv, normFallback, cleanse_scalar h1 h2, pushClass, hcss]
  | vregex p => simp [normInt, hv, normFallback, cleanse_scalar h1 h2, pushClass, hcss]

/-- The `intrange` branch re-stabilizes. -/
theorem restab_intrange (opts : SpecsOptions) (col : Column) (c0 : Cell)
    (hty : col.type = some "intrange") (v : JSVal) (hv : c0.value = some v)
    (l0 : List String) (hcss : c0.cssClass = some (.varr l0)) :
    restabOK (normCleanse col (normFallback opts col (normIntrange c0)))
      (normCleanse col (normFallback opts col
        (normIntrange (normCleanse col (normFallback opts col (normIntrange c0)))))) := by
  unfold restabOK
  cases v with
  | vnum n =>
      by_cases hn : n = JSNum.nan
      · subst hn
        simp [normIntrange, hv, normFallback, cleanse_intrange hty, pushClass, hcss]
      · simp [normIntrange, hv, hn, normFallback, cleanse_intrange hty, keepStr_ne_undef,
          keepStr_ne_none, keepStr_keepStr, keepNum_keepNum, hcss]
  | vstr s =>
      cases hm : intrangeExec s.data with
      | none =>
          simp [normIntrange, hv, hm, normFallback, cleanse_intrange hty, pushClass, hcss]
      | some p =>
          obtain ⟨g1, og3⟩ := p
          simp [normIntrange, hv, hm, normFallback, cleanse_intrange hty, keepStr_ne_undef,
            keepStr_ne_none, keepStr_keepStr, keepNum_keepNum, hcss]
  | vundef => simp [normIntrange, hv, normFallback, cleanse_intrange hty, pushClass, hcss]
  | vnull => simp [normIntrange, hv, normFallback, cleanse_intrange hty, pushClass, hcss]
  | vbool b => simp [normIntrange, hv, normFallback, cleanse_intrange hty, pushClass, hcss]
  | varr xs => simp [normIntrange, hv, normFallback, cleanse_intrange hty, pushClass, hcss]
  | vdate t => simp [normIntrange, hv, normFallback, cleanse_intrange hty, pushClass, hcss]
  | vregex p => simp [normIntrange, hv, normFallback, cleanse_intrange hty, pushClass, hcss]

/-- The `str` fallback branch re-stabilizes. -/
theorem restab_str (opts : SpecsOptions) (col : Column) (c0 : Cell)
    (h1 : ¬ col.type = some "intrange") (h2 : ¬ col.type = some "ip")
    (v : JSVal) (hv : c0.value = some v)
    (l0 : List String) (hcss : c0.cssClass = some (.varr l0)) :
    restabOK (normCleanse col (normFallback opts col (normStr c0)))
      (normCleanse col (normFallback opts col
        (normStr (normCleanse col (normFallback opts col (normStr c0)))))) := by
  unfold restabOK
  cases v with
  | vnum n =>
      by_cases hn : n = JSNum.nan
      · subst hn
        simp [normStr, hv, normFallback, cleanse_scalar h1 h2, pushClass, hcss]
      · simp [normStr, hv, hn, normFallback, cleanse_scalar h1 h2, keepStr_ne_undef,
          keepStr_ne_none, keepStr_keepStr, hcss]
  | vstr s =>
      simp [normStr, hv, normFallback, cleanse_scalar h1 h2, keepStr_ne_undef,
        keepStr_ne_none, keepStr_keepStr, hcss]
  | vundef => simp [normStr, hv, normFallback, cleanse_scalar h1 h2, pushClass, hcss]
  | vnull => simp [normStr, hv, normFallback, cleanse_scalar h1 h2, pushClass, hcss]
  | vbool b =>
      simp [normStr, hv, normFallback, cleanse_scalar h1 h2, keepStr_ne_undef,
        keepStr_ne_none, hcss]
  | varr xs => simp [normStr, hv, normFallback, cleanse_scalar h1 h2, pushClass, hcss]
  | vdate t => simp [normStr, hv, normFallback, cleanse_scalar h1 h2, pushClass, hcss]
  | vregex p => simp [normStr, hv, normFallback, cleanse_scalar h1 h2, pushClass, hcss]

/-- The `version` branch re-stabilizes. -/
theorem restab_version (opts : SpecsOptions) (col : Column) (c0 : Cell)
    (hty : col.type = some "version") (v : JSVal) (hv : c0.value = some v)
    (l0 : List String) (hcss : c0.cssClass = some (.varr l0)) :
    restabOK (normCleanse col (normFallback opts col (normVersion c0)))
      (normCleanse col (normFallback opts col
        (normVersion (normCleanse col (normFallback opts col (normVersion c0)))))) := by
  have h1 : ¬ col.type = some "intrange" := by simp [hty]
  have h2 : ¬ col.type = some "ip" := by simp [hty]
  unfold restabOK
  cases v with
  | vnum n =>
      by_cases hn : JSNum.lt (.fin 0) n = true
      · simp [normVersion, hv, hn, normFallback, cleanse_scalar h1 h2, keepStr_ne_undef,
          keepStr_ne_none, keepStr_keepStr, hcss]
      · simp [normVersion, hv, hn, normFallback, cleanse_scalar h1 h2, pushClass, hcss]
  | vstr s =>
      simp [normVersion, hv, normFallback, cleanse_scalar h1 h2, keepStr_ne_undef,
        keepStr_ne_none, keepStr_keepStr, hcss]
  | vundef => simp [normVersion, hv, normFallback, cleanse_scalar h1 h2, pushClass, hcss]
  | vnull => simp [normVersion, hv, normFallback, cleanse_scalar h1 h2, pushClass, hcss]
  | vbool b => simp [normVersion, hv, normFallback, cleanse_scalar h1 h2, pushClass, hcss]
  | varr xs => simp [normVersion, hv, normFallback, cleanse_scalar h1 h2, pushClass, hcss]
  | vdate t => simp [normVersion, hv, normFallback, cleanse_scalar h1 h2, pushClass, hcss]
  | vregex p => simp [normVersion, hv, normFallback, cleanse_scalar h1 h2, pushClass, hcss]

/-- The `date` branch re-stabilizes. -/
theorem restab_date (opts : SpecsOptions) (col : Column) (c0 : Cell)
    (hty : col.type = some "date") (v : JSVal) (hv : c0.value = some v)
    (l0 : List String) (hcss : c0.cssClass = some (.varr l0)) :
    restabOK (normCleanse col (normFallback opts col (normDate c0)))
      (normCleanse col (normFallback opts col
        (normDate (normCleanse col (normFallback opts col (normDate c0)))))) := by
  have h1 : ¬ col.type = some "intrange" := by simp [hty]
  have h2 : ¬ col.type = some "ip" := by simp [hty]
  unfold restabOK
  cases v with
  | vdate t =>
      by_cases ht : t = JSNum.nan
      · simp [normDate, hv, ht, normFallback, cleanse_scalar h1 h2, pushClass, hcss]
      · simp [normDate, hv, ht, normFallback, cleanse_scalar h1 h2, keepStr_ne_undef,
          keepStr_ne_none, keepStr_keepStr, keepNum_keepNum, hcss]
  | vnum n =>
      by_cases hn : JSNum.lt (.fin 0) n = true
      · simp [normDate, hv, hn, normFallback, cleanse_scalar h1 h2, keepStr_ne_undef,
          keepStr_ne_none, keepStr_keepStr, keepNum_keepNum, hcss]
      · simp [normDate, hv, hn, normFallback, cleanse_scalar h1 h2, pushClass, hcss]
  | vstr s =>
      by_cases hd : jsDateParse (if isYmdShape s.data = true then s ++ "T12:00:00Z" else s) = JSNum.nan
      · simp [normDate, hv, hd, normFallback, cleanse_scalar h1 h2, keepStr_ne_undef,
          keepStr_ne_none, keepStr_keepStr, pushClass, hcss]
      · simp [normDate, hv, hd, normFallback, cleanse_scalar h1 h2, keepStr_ne_undef,
          keepStr_ne_none, keepStr_keepStr, keepNum_keepNum, hcss]
  | vundef => simp [normDate, hv, normFallback, cleanse_scalar h1 h2, pushClass, hcss]
  | vnull => simp [normDate, hv, normFallback, cleanse_scalar h1 h2, pushClass, hcss]
  | vbool b => simp [normDate, hv, normFallback, cleanse_scalar h1 h2, pushClass, hcss]
  | varr xs => simp [normDate, hv, normFallback, cleanse_scalar h1 h2, pushClass, hcss]
  | vregex p => simp [normDate, hv, normFallback, cleanse_scalar h1 h2, pushClass, hcss]

/-- Global `isNaN` of a number value tests the number itself. -/
theorem jsIsNaNv_vnum (n : JSNum) : jsIsNaNv (.vnum n) = decide (n = JSNum.nan) := rfl

set_option maxHeartbeats 1000000 in
/-- The `ip` branch re-stabilizes. -/
theorem restab_ip (opts : SpecsOptions) (col : Column) (c0 : Cell)
    (hty : col.type = some "ip") (v : JSVal) (hv : c0.value = some v)
    (l0 : List String) (hcss : c0.cssClass = some (.varr l0)) :
    restabOK (normCleanse col (normFallback opts col (normIp c0)))
      (normCleanse col (normFallback opts col
        (normIp (normCleanse col (normFallback opts col (normIp c0)))))) := by
  unfold restabOK
  cases v with
  | vstr s =>
      cases hm : ipExec s.data with
      | none =>
          cases hmask : c0.mask with
          | none =>
              simp [normIp, hv, hm, hmask, normFallback, cleanse_ip hty, keepStr_ne_undef,
                keepStr_ne_none, keepStr_keepStr, keepNum_keepNum, isNumClassOpt_keepNum,
                pushClass, hcss, JSNum.falsy, jsIsNaNv_vnum]
          | some mv =>
              by_cases hnan : jsIsNaNv mv = true
              · simp [normIp, hv, hm, hmask, hnan, normFallback, cleanse_ip hty,
                  keepStr_ne_undef, keepStr_ne_none, keepStr_keepStr, keepNum_keepNum,
                  isNumClassOpt_keepNum, pushClass, hcss, JSNum.falsy, jsIsNaNv_vnum]
              · simp [normIp, hv, hm, hmask, hnan, normFallback, cleanse_ip hty,
                  keepStr_ne_undef, keepStr_ne_none, keepStr_keepStr, keepNum_keepNum,
                  isNumClassOpt_keepNum, pushClass, hcss, JSNum.falsy, jsIsNaNv_vnum]
      | some p =>
          obtain ⟨quad, om⟩ := p
          by_cases hfal : (ip2long quad).falsy = true
          · cases hmask : c0.mask with
            | none =>
                simp [normIp, hv, hm, hmask, hfal, normFallback, cleanse_ip hty,
                  keepStr_ne_undef, keepStr_ne_none, keepStr_keepStr, keepNum_keepNum,
                  isNumClassOpt_keepNum, pushClass, hcss, jsIsNaNv_vnum]
            | some mv =>
                by_cases hnan : jsIsNaNv mv = true
                · simp [normIp, hv, hm, hmask, hfal, hnan, normFallback, cleanse_ip hty,
                    keepStr_ne_undef, keepStr_ne_none, keepStr_keepStr, keepNum_keepNum,
                    isNumClassOpt_keepNum, pushClass, hcss, jsIsNaNv_vnum]
                · simp [normIp, hv, hm, hmask, hfal, hnan, normFallback, cleanse_ip hty,
                    keepStr_ne_undef, keepStr_ne_none, keepStr_keepStr, keepNum_keepNum,
                    isNumClassOpt_keepNum, pushClass, hcss, jsIsNaNv_vnum]
          · cases hmask : c0.mask with
            | none =>
                simp [normIp, hv, hm, hmask, hfal, normFallback, cleanse_ip hty,
                  keepStr_ne_undef, keepStr_ne_none, keepStr_keepStr, keepNum_keepNum,
                  isNumClassOpt_keepNum, pushClass, hcss, jsIsNaNv_vnum]
            | some mv =>
                by_cases hnan : jsIsNaNv mv = true
                · simp [normIp, hv, hm, hmask, hfal, hnan, normFallback, cleanse_ip hty,
                    keepStr_ne_undef, keepStr_ne_none, keepStr_keepStr, keepNum_keepNum,
                    isNumClassOpt_keepNum, pushClass, hcss, jsIsNaNv_vnum]
                · simp [normIp, hv, hm, hmask, hfal, hnan, normFallback, cleanse_ip hty,
                    keepStr_ne_undef, keepStr_ne_none, keepStr_keepStr, keepNum_keepNum,
                    isNumClassOpt_keepNum, pushClass, hcss, jsIsNaNv_vnum]
  | vnum n => simp [normIp, hv, normFallback, cleanse_ip hty, pushClass, hcss]
  | vundef => simp [normIp, hv, normFallback, cleanse_ip hty, pushClass, hcss]
  | vnull => simp [normIp, hv, normFallback, cleanse_ip hty, pushClass, hcss]
  | vbool b => simp [normIp, hv, normFallback, cleanse_ip hty, pushClass, hcss]
  | varr xs => simp [normIp, hv, normFallback, cleanse_ip hty, pushClass, hcss]
  | vdate t => simp [normIp, hv, normFallback, cleanse_ip hty, pushClass, hcss]
  | vregex p => simp [normIp, hv, normFallback, cleanse_ip hty, pushClass, hcss]

/-- The per-type branches never touch `value`, `type` or `htmlAlt`. -/
theorem normInt_frame (c : Cell) :
    (normInt c).value = c.value ∧ (normInt c).typ = c.typ ∧ (normInt c).htmlAlt = c.htmlAlt := by
  unfold normInt
  repeat' split
  all_goals simp [apply_ite Cell.value, apply_ite Cell.typ, apply_ite Cell.htmlAlt,
    apply_ite Cell.cssClass]

/-- The intrange branch never touches `value`, `type` or `htmlAlt`. -/
theorem normIntrange_frame (c : Cell) :
    (normIntrange c).value = c.value ∧ (normIntrange c).typ = c.typ ∧
      (normIntrange c).htmlAlt = c.htmlAlt := by
  unfold normIntrange
  repeat' split
  all_goals simp [apply_ite Cell.value, apply_ite Cell.typ, apply_ite Cell.htmlAlt,
    apply_ite Cell.cssClass]

/-- The ip branch never touches `value`, `type` or `htmlAlt`. -/
theorem normIp_frame (c : Cell) :
    (normIp c).value = c.value ∧ (normIp c).typ = c.typ ∧ (normIp c).htmlAlt = c.htmlAlt := by
  unfold normIp
  repeat' split
  all_goals simp [apply_ite Cell.value, apply_ite Cell.typ, apply_ite Cell.htmlAlt,
    apply_ite Cell.cssClass]

/-- The date branch never touches `value`, `type` or `htmlAlt`. -/
theorem normDate_frame (c : Cell) :
    (normDate c).value = c.value ∧ (normDate c).typ = c.typ ∧
      (normDate c).htmlAlt = c.htmlAlt := by
  unfold normDate
  repeat' split
  all_goals simp [apply_ite Cell.value, apply_ite Cell.typ, apply_ite Cell.htmlAlt,
    apply_ite Cell.cssClass]

/-- The version branch never touches `value`, `type` or `htmlAlt`. -/
theorem normVersion_frame (c : Cell) :
    (normVersion c).value = c.value ∧ (normVersion c).typ = c.typ ∧
      (normVersion c).htmlAlt = c.htmlAlt := by
  unfold normVersion
  repeat' split
  all_goals simp [apply_ite Cell.value, apply_ite Cell.typ, apply_ite Cell.htmlAlt,
    apply_ite Cell.cssClass]

/-- The str branch never touches `value`, `type` or `htmlAlt`. -/
theorem normStr_frame (c : Cell) :
    (normStr c).value = c.value ∧ (normStr c).typ = c.typ ∧ (normStr c).htmlAlt = c.htmlAlt := by
  unfold normStr
  repeat' split
  all_goals simp [apply_ite Cell.value, apply_ite Cell.typ, apply_ite Cell.htmlAlt,
    apply_ite Cell.cssClass]

/-- The dispatch never touches `value`, `type` or `htmlAlt`. -/
theorem normBody_frame (col : Column) (c : Cell) :
    (normBody col c).value = c.value ∧ (normBody col c).typ = c.typ ∧
      (normBody col c).htmlAlt = c.htmlAlt := by
  unfold normBody
  split_ifs <;>
    first
      | exact normInt_frame c
      | exact normIntrange_frame c
      | exact normIp_frame c
      | exact normDate_frame c
      | exact normVersion_frame c
      | exact normStr_frame c

/-- The fallback never touches `value`, `type` or `htmlAlt`. -/
theorem normFallback_frame (opts : SpecsOptions) (col : Column) (c : Cell) :
    (normFallback opts col c).value = c.value ∧ (normFallback opts col c).typ = c.typ ∧
      (normFallback opts col c).htmlAlt = c.htmlAlt := by
  unfold normFallback
  split_ifs <;> simp

/-- Cleansing touches only the ordering keys and the mask. -/
theorem normCleanse_frame (col : Column) (c : Cell) :
    (normCleanse col c).value = c.value ∧ (normCleanse col c).typ = c.typ ∧
      (normCleanse col c).htmlAlt = c.htmlAlt ∧
      (normCleanse col c).cssClass = c.cssClass := by
  unfold normCleanse
  repeat' split
  all_goals simp [apply_ite Cell.value, apply_ite Cell.typ, apply_ite Cell.htmlAlt,
    apply_ite Cell.cssClass]

/-- The branches keep cssClass an array. -/
theorem normBody_css (col : Column) (c : Cell) (l0 : List String)
    (hcss : c.cssClass = some (.varr l0)) :
    ∃ l, (normBody col c).cssClass = some (.varr l) := by
  unfold normBody normInt normIntrange normIp normDate normVersion normStr
  repeat' split
  all_goals simp [apply_ite Cell.cssClass, pushClass, hcss]
  all_goals split_ifs <;> exact ⟨_, rfl⟩

/-- The fallback keeps cssClass an array. -/
theorem normFallback_css (opts : SpecsOptions) (col : Column) (c : Cell) (l0 : List String)
    (hcss : c.cssClass = some (.varr l0)) :
    ∃ l, (normFallback opts col c).cssClass = some (.varr l) := by
  unfold normFallback
  split_ifs <;> simp [pushClass, hcss]

/-- `normalizeValue` records the class of the (final) value in `type`. -/
theorem normStart_typ (input : CellInput) :
    (normStart input).typ = some (.vstr (typeOfOpt (normStart input).value)) := rfl

/-- After the preamble, cssClass is always an array. -/
theorem normStart_css (input : CellInput) :
    ∃ l, (normStart input).cssClass = some (.varr l) := by
  unfold normStart value2array
  dsimp only
  split <;> first
    | exact ⟨_, rfl⟩
    | (split_ifs <;> exact ⟨_, rfl⟩)

/-- A cell whose value slot is filled passes the recovery step untouched. -/
theorem normPrep_obj_some (c : Cell) (v : JSVal) (hv : c.value = some v) :
    normPrep (.obj c) = c := by
  cases c
  simp only at hv
  subst hv
  rfl

/-- Feeding a cell that already looks normalized (value present, type
recorded, cssClass an array) back into the preamble is the identity. -/
theorem normStart_obj_stable (c : Cell) (v : JSVal) (hv : c.value = some v)
    (ht : c.typ = some (.vstr (typeOfOpt c.value)))
    (l : List String) (hcss : c.cssClass = some (.varr l)) :
    normStart (.obj c) = c := by
  have hp : normPrep (.obj c) = c := normPrep_obj_some c v hv
  unfold normStart
  dsimp only
  rw [hp]
  cases c
  simp_all [value2array]

/-- C5: `normalizeValue` is NOT idempotent as claimed — on a cell whose value
fails its column's type check, re-normalizing pushes a second "bad-value"
onto cssClass. Corrected statement (`c5_renormalize`): provided the first
normalization leaves a value present, a second pass preserves html, match,
cmp, cmpMin, cmpMax and mask exactly, and preserves cssClass up to possibly
appending one more "bad-value" tag. -/
theorem c5_renormalize (opts : SpecsOptions) (col : Column) (input : CellInput)
    (h : (normalizeValue opts col input).value.isSome) :
    restabOK (normalizeValue opts col input)
      (normalizeValue opts col (.obj (normalizeValue opts col input))) := by
  obtain ⟨bv, bt, _⟩ := normBody_frame col (normStart input)
  obtain ⟨fv, ft, _⟩ := normFallback_frame opts col (normBody col (normStart input))
  obtain ⟨cv, ct, _, ccss⟩ :=
    normCleanse_frame col (normFallback opts col (normBody col (normStart input)))
  have hval : (normalizeValue opts col input).value = (normStart input).value := by
    show (normCleanse col (normFallback opts col (normBody col (normStart input)))).value = _
    rw [cv, fv, bv]
  have htyp : (normalizeValue opts col input).typ = (normStart input).typ := by
    show (normCleanse col (normFallback opts col (normBody col (normStart input)))).typ = _
    rw [ct, ft, bt]
  obtain ⟨v, hv⟩ := Option.isSome_iff_exists.mp h
  have hv0 : (normStart input).value = some v := by rw [← hval]; exact hv
  obtain ⟨l0, hcss0⟩ := normStart_css input
  obtain ⟨l1, hcss1⟩ := normBody_css col (normStart input) l0 hcss0
  obtain ⟨l2, hcss2⟩ := normFallback_css opts col (normBody col (normStart input)) l1 hcss1
  have hcssNV : (normalizeValue opts col input).cssClass = some (.varr l2) := by
    show (normCleanse col (normFallback opts col (normBody col (normStart input)))).cssClass = _
    rw [ccss]; exact hcss2
  have htypNV : (normalizeValue opts col input).typ
      = some (.vstr (typeOfOpt (normalizeValue opts col input).value)) := by
    rw [htyp, hval, normStart_typ]
  have hstart2 : normStart (.obj (normalizeValue opts col input))
      = normalizeValue opts col input :=
    normStart_obj_stable _ v hv htypNV l2 hcssNV
  have hNV2 : normalizeValue opts col (.obj (normalizeValue opts col input))
      = normCleanse col (normFallback opts col
          (normBody col (normalizeValue opts col input))) := by
    show normCleanse col (normFallback opts col
          (normBody col (normStart (.obj (normalizeValue opts col input))))) = _
    rw [hstart2]
  rw [hNV2]
  by_cases t1 : col.type = some "int"
  · have hb : ∀ d, normBody col d = normInt d := fun d => by
      unfold normBody; rw [if_pos t1]
    have hNV1 : normalizeValue opts col input
        = normCleanse col (normFallback opts col (normInt (normStart input))) := by
      show normCleanse col (normFallback opts col (normBody col (normStart input))) = _
      rw [hb]
    rw [hNV1, hb]
    exact restab_int opts col (normStart input) t1 v hv0 l0 hcss0
  by_cases t2 : col.type = some "intrange"
  · have hb : ∀ d, normBody col d = normIntrange d := fun d => by
      unfold normBody; rw [if_neg t1, if_pos t2]
    have hNV1 : normalizeValue opts col input
        = normCleanse col (normFallback opts col (normIntrange (normStart input))) := by
      show normCleanse col (normFallback opts col (normBody col (normStart input))) = _
      rw [hb]
    rw [hNV1, hb]
    exact restab_intrange opts col (normStart input) t2 v hv0 l0 hcss0
  by_cases t3 : col.type = some "ip"
  · have hb : ∀ d, normBody col d = normIp d := fun d => by
      unfold normBody; rw [if_neg t1, if_neg t2, if_pos t3]
    have hNV1 : normalizeValue opts col input
        = normCleanse col (normFallback opts col (normIp (normStart input))) := by
      show normCleanse col (normFallback opts col (normBody col (normStart input))) = _
      rw [hb]
    rw [hNV1, hb]
    exact restab_ip opts col (normStart input) t3 v hv0 l0 hcss0
  by_cases t4 : col.type = some "date"
  · have hb : ∀ d, normBody col d = normDate d := fun d => by
      unfold normBody; rw [if_neg t1, if_neg t2, if_neg t3, if_pos t4]
    have hNV1 : normalizeValue opts col input
        = normCleanse col (normFallback opts col (normDate (normStart input))) := by
      show normCleanse col (normFallback opts col (normBody col (normStart input))) = _
      rw [hb]
    rw [hNV1, hb]
    exact restab_date opts col (normStart input) t4 v hv0 l0 hcss0
  by_cases t5 : col.type = some "version"
  · have hb : ∀ d, normBody col d = normVersion d := fun d => by
      unfold normBody; rw [if_neg t1, if_neg t2, if_neg t3, if_neg t4, if_pos t5]
    have hNV1 : normalizeValue opts col input
        = normCleanse col (normFallback opts col (normVersion (normStart input))) := by
      show normCleanse col (normFallback opts col (normBody col (normStart input))) = _
      rw [hb]
    rw [hNV1, hb]
    exact restab_version opts col (normStart input) t5 v hv0 l0 hcss0
  · have hb : ∀ d, normBody col d = normStr d := fun d => by
      unfold normBody; rw [if_neg t1, if_neg t2, if_neg t3, if_neg t4, if_neg t5]
    have hNV1 : normalizeValue opts col input
        = normCleanse col (normFallback opts col (normStr (normStart input))) := by
      show normCleanse col (normFallback opts col (normBody col (normStart input))) = _
      rw [hb]
    rw [hNV1, hb]
    exact restab_str opts col (normStart input) t2 t3 v hv0 l0 hcss0

/-- C5 witness: a concrete int cell with value "80" re-normalizes without
change of any derived field. -/
theorem c5_renormalize_witness :
    restabOK (normalizeValue specsOptions { key := "id", type := some "int" }
        (.raw (.vstr "80")))
      (normalizeValue specsOptions { key := "id", type := some "int" }
        (.obj (normalizeValue specsOptions { key := "id", type := some "int" }
          (.raw (.vstr "80"))))) :=
  c5_renormalize specsOptions { key := "id", type := some "int" }
    (.raw (.vstr "80")) (by decide)
